import Mathlib

/-!
# Verification of the autocontent pipeline (fetch → dedup → generate → publish)

Shallow embedding, in Lean 4, of the service/repo layer of the `autocontent`
repository: text normalisation and draft hashing (`shared/text.py`),
idempotent draft creation (`repos/post_drafts.py`), draft generation
(`services/draft_service.py`), source-item deduplication and the RSS fetch
loop (`repos/source_items.py`, `services/rss_fetcher.py`), publication with
retries and idempotency (`services/publication_service.py`), the autopost
scheduler's slot resolution, and the publication-log repository
(`repos/publication_logs.py`).

Python strings are embedded as `List Char`; machine-independent integers
(ids, counters) as `Nat`; absolute instants as `Int` seconds; durations as
`Nat` seconds (sleeps in tenths of a second so that the 0.5-second backoff
base stays integral).  Database rows live in plain lists; each repository
method becomes a pure function from state to state.  Exceptions become
`Except` values.
-/

deriving instance DecidableEq for Except

namespace Autocontent

/-- Python strings are modelled as lists of characters. -/
abbrev Str := List Char

/-- Characters treated as whitespace by Python's `\s` regex class and
`str.strip` (ASCII part; the sources only ever deal with ASCII whitespace). -/
def isWs (c : Char) : Bool :=
  c = ' ' || c = '\t' || c = '\n' || c = '\r' || c = '\x0b' || c = '\x0c'

/-- Python `str.lstrip()`. -/
def lstrip (s : Str) : Str := s.dropWhile isWs

/-- Python `str.rstrip()`. -/
def rstrip (s : Str) : Str := (s.reverse.dropWhile isWs).reverse

/-- Python `str.strip()`. -/
def strip (s : Str) : Str := rstrip (lstrip s)

theorem dropWhile_length_le (p : α → Bool) (l : List α) :
    (l.dropWhile p).length ≤ l.length := by
  induction l with
  | nil => simp
  | cons a t ih =>
      by_cases h : p a
      · simp only [List.dropWhile_cons_of_pos h]
        exact Nat.le_succ_of_le ih
      · simp [List.dropWhile_cons_of_neg h]

/-- Helper for `collapseWs`: the flag records whether the previous character
belonged to a whitespace run that has already emitted its single space. -/
def collapseWsAux : Bool → Str → Str
  | _, [] => []
  | inRun, c :: rest =>
      if isWs c then
        if inRun then collapseWsAux true rest
        else ' ' :: collapseWsAux true rest
      else c :: collapseWsAux false rest

/-- One pass of `re.sub(r"\s+", " ", text)`: every maximal run of whitespace
characters is replaced by a single space. -/
def collapseWs (s : Str) : Str := collapseWsAux false s

/-- `shared/text.py::normalize_text`: collapse whitespace runs to a single
space, then strip. -/
def normalize_text (s : Str) : Str := strip (collapseWs s)

/-- Decimal digit characters, used to embed Python `str(n)` for `n : Nat`. -/
def decDigit (n : Nat) : Char := Char.ofNat (48 + n % 10)

/-- Helper for `decChars`; the fuel argument only bounds the recursion depth
(`n + 1` is always enough since `n / 10 < n`). -/
def decCharsAux : Nat → Nat → Str
  | 0, _ => []
  | fuel + 1, n =>
      if n < 10 then [decDigit n]
      else decCharsAux fuel (n / 10) ++ [decDigit (n % 10)]

/-- Python `str(n)` for a non-negative integer `n`. -/
def decChars (n : Nat) : Str := decCharsAux (n + 1) n

/-! ## SHA-256 (over `Nat` with explicit reduction modulo `2 ^ 32`)

`shared/text.py::compute_content_hash` feeds the UTF-8 encoding of the
joined, normalised parts through `hashlib.sha256` and returns the hex
digest.  The full compression function is embedded here. -/

/-- Truncate to a 32-bit word. -/
def w32 (n : Nat) : Nat := n % 4294967296

/-- 32-bit right rotation. -/
def rotr32 (x n : Nat) : Nat := w32 (x / 2 ^ n + x * 2 ^ (32 - n))

/-- 32-bit right shift. -/
def shr32 (x n : Nat) : Nat := x / 2 ^ n

/-- Bitwise complement within 32 bits. -/
def not32 (x : Nat) : Nat := 4294967295 - w32 x

def sha256K : List Nat :=
  [1116352408, 1899447441, 3049323471, 3921009573,
   961987163, 1508970993, 2453635748, 2870763221,
   3624381080, 310598401, 607225278, 1426881987,
   1925078388, 2162078206, 2614888103, 3248222580,
   3835390401, 4022224774, 264347078, 604807628,
   770255983, 1249150122, 1555081692, 1996064986,
   2554220882, 2821834349, 2952996808, 3210313671,
   3336571891, 3584528711, 113926993, 338241895,
   666307205, 773529912, 1294757372, 1396182291,
   1695183700, 1986661051, 2177026350, 2456956037,
   2730485921, 2820302411, 3259730800, 3345764771,
   3516065817, 3600352804, 4094571909, 275423344,
   430227734, 506948616, 659060556, 883997877,
   958139571, 1322822218, 1537002063, 1747873779,
   1955562222, 2024104815, 2227730452, 2361852424,
   2428436474, 2756734187, 3204031479, 3329325298]

structure Sha8 where
  a : Nat
  b : Nat
  c : Nat
  d : Nat
  e : Nat
  f : Nat
  g : Nat
  h : Nat

def sha256H0 : Sha8 :=
  ⟨1779033703, 3144134277, 1013904242, 2773480762,
   1359893119, 2600822924, 528734635, 1541459225⟩

/-- Big-endian 4-byte group to a 32-bit word. -/
def bytesToWords : List Nat → List Nat
  | b0 :: b1 :: b2 :: b3 :: rest =>
      (b0 * 16777216 + b1 * 65536 + b2 * 256 + b3) :: bytesToWords rest
  | _ => []

/-- SHA-256 padding: append `0x80`, zero bytes, then the bit length as an
8-byte big-endian integer, reaching a multiple of 64 bytes. -/
def sha256Pad (msg : List Nat) : List Nat :=
  let l := msg.length
  let zeros := (119 - l % 64) % 64
  let bitLen := 8 * l
  msg ++ [0x80] ++ List.replicate zeros 0 ++
    [shr32 bitLen 56 % 256, shr32 bitLen 48 % 256, shr32 bitLen 40 % 256,
     shr32 bitLen 32 % 256, shr32 bitLen 24 % 256, shr32 bitLen 16 % 256,
     shr32 bitLen 8 % 256, bitLen % 256]

/-- Split into 64-byte blocks. -/
def sha256Blocks : List Nat → List (List Nat)
  | [] => []
  | a :: rest => (a :: rest).take 64 :: sha256Blocks ((a :: rest).drop 64)
termination_by l => l.length
decreasing_by
  simp only [List.length_drop, List.length_cons]
  omega

/-- Extend the 16 block words to the 64-entry message schedule. -/
def sha256Schedule (ws : List Nat) : List Nat :=
  (List.range 48).foldl
    (fun acc _ =>
      let n := acc.length
      let w15 := acc.getD (n - 15) 0
      let w2 := acc.getD (n - 2) 0
      let s0 := w32 (Nat.xor (Nat.xor (rotr32 w15 7) (rotr32 w15 18)) (shr32 w15 3))
      let s1 := w32 (Nat.xor (Nat.xor (rotr32 w2 17) (rotr32 w2 19)) (shr32 w2 10))
      acc ++ [w32 (acc.getD (n - 16) 0 + s0 + acc.getD (n - 7) 0 + s1)])
    ws

/-- One round of the SHA-256 compression function. -/
def sha256Round (st : Sha8) (kw : Nat × Nat) : Sha8 :=
  let s1 := w32 (Nat.xor (Nat.xor (rotr32 st.e 6) (rotr32 st.e 11)) (rotr32 st.e 25))
  let ch := w32 (Nat.xor (Nat.land st.e st.f) (Nat.land (not32 st.e) st.g))
  let t1 := w32 (st.h + s1 + ch + kw.1 + kw.2)
  let s0 := w32 (Nat.xor (Nat.xor (rotr32 st.a 2) (rotr32 st.a 13)) (rotr32 st.a 22))
  let mj := w32 (Nat.xor (Nat.xor (Nat.land st.a st.b) (Nat.land st.a st.c))
    (Nat.land st.b st.c))
  let t2 := w32 (s0 + mj)
  ⟨w32 (t1 + t2), st.a, st.b, st.c, w32 (st.d + t1), st.e, st.f, st.g⟩

/-- Process one 64-byte block. -/
def sha256Block (st : Sha8) (block : List Nat) : Sha8 :=
  let ws := sha256Schedule (bytesToWords block)
  let r := (sha256K.zip ws).foldl sha256Round st
  ⟨w32 (st.a + r.a), w32 (st.b + r.b), w32 (st.c + r.c), w32 (st.d + r.d),
   w32 (st.e + r.e), w32 (st.f + r.f), w32 (st.g + r.g), w32 (st.h + r.h)⟩

/-- The lower-case hexadecimal digit for `n % 16` (`0`–`9` then `a`–`f`). -/
def hexDigit (n : Nat) : Char :=
  if n % 16 < 10 then Char.ofNat (48 + n % 16) else Char.ofNat (87 + n % 16)

/-- Lower-case hex rendering of a 32-bit word. -/
def wordToHex (x : Nat) : Str :=
  [hexDigit (shr32 x 28), hexDigit (shr32 x 24), hexDigit (shr32 x 20),
   hexDigit (shr32 x 16), hexDigit (shr32 x 12), hexDigit (shr32 x 8),
   hexDigit (shr32 x 4), hexDigit x]

/-- SHA-256 hex digest of a byte sequence. -/
def sha256Hex (msg : List Nat) : Str :=
  let st := (sha256Blocks (sha256Pad msg)).foldl sha256Block sha256H0
  wordToHex st.a ++ wordToHex st.b ++ wordToHex st.c ++ wordToHex st.d ++
    wordToHex st.e ++ wordToHex st.f ++ wordToHex st.g ++ wordToHex st.h

/-- UTF-8 encoding of one character. -/
def utf8Char (c : Char) : List Nat :=
  let n := c.toNat
  if n < 128 then [n]
  else if n < 2048 then [192 + n / 64, 128 + n % 64]
  else if n < 65536 then [224 + n / 4096, 128 + n / 64 % 64, 128 + n % 64]
  else [240 + n / 262144, 128 + n / 4096 % 64, 128 + n / 64 % 64, 128 + n % 64]

/-- UTF-8 encoding of a string. -/
def utf8Bytes (s : Str) : List Nat := s.flatMap utf8Char

/-- `shared/text.py::compute_content_hash`: normalise every part, join with
`"|"`, SHA-256 over the UTF-8 bytes, hex digest. -/
def compute_content_hash (parts : List Str) : Str :=
  sha256Hex (utf8Bytes (List.intercalate ['|'] (parts.map normalize_text)))

/-- `shared/text.py::compute_draft_hash`: content hash over
`(str(project_id), str(source_item_id), template_id or "", raw_text)`. -/
def compute_draft_hash (project_id source_item_id : Nat) (template_id : Option Str)
    (raw_text : Str) : Str :=
  compute_content_hash
    [decChars project_id, decChars source_item_id, template_id.getD [], raw_text]

/-! ## Scheduler slot resolution (`services/publication_service.py`) -/

/-- `SCHEDULE_WINDOW_MINUTES` in `publication_service.py`. -/
def SCHEDULE_WINDOW_MINUTES : Nat := 5

/-- `PUBLISH_TTL` (24 hours, in seconds) in `publication_service.py`. -/
def PUBLISH_TTL : Nat := 24 * 60 * 60

def digitVal (c : Char) : Option Nat :=
  if '0' ≤ c ∧ c ≤ '9' then some (c.toNat - 48) else none

/-- `datetime.time.fromisoformat` restricted to the canonical 5-character
`HH:MM` form the schedule's slot lists are stored in (two-digit hour `00`–`23`,
colon, two-digit minute `00`–`59`), returning minutes since midnight.  Slot
strings of any other shape are treated as parse failures, matching the
`except ValueError: continue` in `_resolve_due_slot`. -/
def parseHHMM : Str → Option Nat
  | [h1, h2, c, m1, m2] =>
      if c = ':' then
        match digitVal h1, digitVal h2, digitVal m1, digitVal m2 with
        | some a, some b, some x, some y =>
            if 10 * a + b ≤ 23 ∧ 10 * x + y ≤ 59 then
              some ((10 * a + b) * 60 + (10 * x + y))
            else none
        | _, _, _, _ => none
      else none
  | _ => none

/-- Python `max` over a list (`None` on empty, as guarded by the
`if not candidates` check in the source). -/
def listMax : List Int → Option Int
  | [] => none
  | a :: rest => some (rest.foldl max a)

/-- Midnight of the local calendar day containing `t`
(`datetime.combine(now_local.date(), time.min)`), for instants measured in
seconds. -/
def localMidnight (t : Int) : Int := 86400 * (t.ediv 86400)

/-- `publication_service.py::_resolve_due_slot`: over the decoded slot list,
keep every slot whose local datetime on the current day is at or before
`now_local` and within the 5-minute window of it, and return the latest such
slot datetime (`None` when there is none).  The `slots_json` JSON decoding is
done by the caller; a non-string entry is a skipped entry, matching
`if not isinstance(slot, str): continue`. -/
def resolve_due_slot (now_local : Int) (slots : List Str) : Option Int :=
  let midnight := localMidnight now_local
  listMax (slots.filterMap (fun s =>
    match parseHHMM s with
    | none => none
    | some m =>
        let slot_dt := midnight + 60 * (m : Int)
        if slot_dt ≤ now_local ∧ now_local - slot_dt ≤ 60 * (SCHEDULE_WINDOW_MINUTES : Int)
        then some slot_dt else none))

/-! ## Post drafts (`domain/models.py::PostDraft`, `repos/post_drafts.py`) -/

structure PostDraft where
  id : Nat
  project_id : Nat
  source_item_id : Nat
  template_id : Option Str
  text : Str
  draft_hash : Str
  status : Str
  created_at : Int
deriving DecidableEq

/-- `PostDraftRepository.get_by_hash` (the table keeps `draft_hash` unique,
so the first match is the match). -/
def get_by_hash (db : List PostDraft) (h : Str) : Option PostDraft :=
  db.find? (fun d => d.draft_hash == h)

/-- `PostDraftRepository.get_by_id`. -/
def draft_get_by_id (db : List PostDraft) (draft_id : Nat) : Option PostDraft :=
  db.find? (fun d => d.id == draft_id)

/-- `PostDraftRepository.update_status`: silently a no-op when the draft is
missing. -/
def draft_update_status (db : List PostDraft) (draft_id : Nat) (status : Str) :
    List PostDraft :=
  db.map (fun d => if d.id == draft_id then { d with status := status } else d)

/-- `PostDraftRepository.create_draft`.  The session sees state `checkDb`
when it runs `get_by_hash`; the commit runs against `commitDb` (any rows a
concurrent winner added in between are in `commitDb` and not in `checkDb`;
a sequential call has `commitDb = checkDb`).  The commit raises
`IntegrityError` exactly when the unique index on `draft_hash` is violated,
in which case the repository rolls back and fetches the existing row. -/
def create_draft (checkDb commitDb : List PostDraft) (newId : Nat)
    (project_id source_item_id : Nat) (template_id : Option Str)
    (text draft_hash : Str) (status : Str) (now : Int) :
    PostDraft × List PostDraft :=
  match get_by_hash checkDb draft_hash with
  | some existing => (existing, commitDb)
  | none =>
      let draft : PostDraft :=
        ⟨newId, project_id, source_item_id, template_id, text, draft_hash, status, now⟩
      match get_by_hash commitDb draft_hash with
      | some winner => (winner, commitDb)
      | none => (draft, commitDb ++ [draft])

/-! ### Facts about `listMax` -/

theorem foldl_max_acc_le (l : List Int) (a : Int) : a ≤ l.foldl max a := by
  induction l generalizing a with
  | nil => simp
  | cons x t ih => exact le_trans (le_max_left a x) (ih (max a x))

theorem foldl_max_mem_le (l : List Int) : ∀ (a x : Int), x ∈ l → x ≤ l.foldl max a := by
  induction l with
  | nil => intro a x hx; cases hx
  | cons y t ih =>
      intro a x hx
      rcases List.mem_cons.mp hx with h | h
      · subst h
        exact le_trans (le_max_right a x) (foldl_max_acc_le t (max a x))
      · exact ih (max a y) x h

theorem foldl_max_cases (l : List Int) (a : Int) :
    l.foldl max a = a ∨ l.foldl max a ∈ l := by
  induction l generalizing a with
  | nil => left; rfl
  | cons x t ih =>
      rcases ih (max a x) with h | h
      · simp only [List.foldl_cons] at *
        rcases max_cases a x with ⟨he, _⟩ | ⟨he, _⟩
        · left; rw [h, he]
        · right; rw [h, he]; exact List.mem_cons_self _ _
      · right
        exact List.mem_cons_of_mem _ h

theorem listMax_mem {l : List Int} {m : Int} (h : listMax l = some m) : m ∈ l := by
  cases l with
  | nil => cases h
  | cons a t =>
      simp only [listMax, Option.some.injEq] at h
      subst h
      rcases foldl_max_cases t a with h | h
      · rw [h]; exact List.mem_cons_self _ _
      · exact List.mem_cons_of_mem _ h

theorem listMax_le {l : List Int} {m x : Int} (h : listMax l = some m) (hx : x ∈ l) :
    x ≤ m := by
  cases l with
  | nil => cases h
  | cons a t =>
      simp only [listMax, Option.some.injEq] at h
      subst h
      rcases List.mem_cons.mp hx with hx | hx
      · subst hx; exact foldl_max_acc_le t x
      · exact foldl_max_mem_le t a x hx

theorem listMax_isSome {l : List Int} : (listMax l).isSome ↔ l ≠ [] := by
  cases l <;> simp [listMax]

/-- The filter applied to one slot string inside `resolve_due_slot`. -/
theorem resolve_filter_eq (now_local : Int) (s : Str) (x : Int) :
    (match parseHHMM s with
      | none => none
      | some m =>
          let slot_dt := localMidnight now_local + 60 * (m : Int)
          if slot_dt ≤ now_local ∧ now_local - slot_dt ≤ 60 * (SCHEDULE_WINDOW_MINUTES : Int)
          then some slot_dt else none) = some x ↔
      ∃ m, parseHHMM s = some m ∧ x = localMidnight now_local + 60 * (m : Int) ∧
        x ≤ now_local ∧ now_local ≤ x + 300 := by
  have hW : ((SCHEDULE_WINDOW_MINUTES : Nat) : Int) = 5 := rfl
  cases hp : parseHHMM s with
  | none => simp
  | some m =>
      simp only [Option.some.injEq]
      constructor
      · intro hx
        split_ifs at hx with hc
        · cases hx
          exact ⟨m, rfl, rfl, hc.1, by omega⟩
      · rintro ⟨m', hm', hx, hle, hwin⟩
        cases hm'
        subst hx
        rw [if_pos ⟨hle, by omega⟩]

/-- Membership in the candidate list of `resolve_due_slot`. -/
theorem mem_resolve_candidates (now_local : Int) (slots : List Str) (x : Int) :
    x ∈ slots.filterMap (fun s =>
      match parseHHMM s with
      | none => none
      | some m =>
          let slot_dt := localMidnight now_local + 60 * (m : Int)
          if slot_dt ≤ now_local ∧ now_local - slot_dt ≤ 60 * (SCHEDULE_WINDOW_MINUTES : Int)
          then some slot_dt else none) ↔
    ∃ s ∈ slots, ∃ m, parseHHMM s = some m ∧
      x = localMidnight now_local + 60 * (m : Int) ∧ x ≤ now_local ∧ now_local ≤ x + 300 := by
  rw [List.mem_filterMap]
  constructor
  · rintro ⟨s, hs, hx⟩
    exact ⟨s, hs, (resolve_filter_eq now_local s x).mp hx⟩
  · rintro ⟨s, hs, hm⟩
    exact ⟨s, hs, (resolve_filter_eq now_local s x).mpr hm⟩

/-- **C2.** For every slot list and local instant `now_local`, the scheduler
resolves some due slot exactly when a well-formed `HH:MM` slot `s` on the
current local calendar day satisfies `s ≤ now_local ≤ s + 5 minutes`; the
resolved slot is such a due slot and is the latest among all due slots; with
slots `["10:00","14:00"]` and `now_local` 10:02 it resolves 10:00, and with
`now_local` 14:06 it resolves no slot. -/
theorem claim_C2 (now_local : Int) (slots : List Str) :
    ((resolve_due_slot now_local slots).isSome ↔
      ∃ s ∈ slots, ∃ m, parseHHMM s = some m ∧
        localMidnight now_local + 60 * (m : Int) ≤ now_local ∧
        now_local ≤ localMidnight now_local + 60 * (m : Int) + 300) ∧
    (∀ t, resolve_due_slot now_local slots = some t →
      (∃ s ∈ slots, ∃ m, parseHHMM s = some m ∧
        t = localMidnight now_local + 60 * (m : Int) ∧ t ≤ now_local ∧ now_local ≤ t + 300) ∧
      (∀ s ∈ slots, ∀ m, parseHHMM s = some m →
        localMidnight now_local + 60 * (m : Int) ≤ now_local →
        now_local ≤ localMidnight now_local + 60 * (m : Int) + 300 →
        localMidnight now_local + 60 * (m : Int) ≤ t)) ∧
    resolve_due_slot 36120 ["10:00".data, "14:00".data] = some 36000 ∧
    resolve_due_slot 50760 ["10:00".data, "14:00".data] = none := by
  refine ⟨?_, ?_, by decide, by decide⟩
  · rw [resolve_due_slot, listMax_isSome]
    constructor
    · intro hne
      rcases List.exists_mem_of_ne_nil _ hne with ⟨x, hx⟩
      rcases (mem_resolve_candidates now_local slots x).mp hx with ⟨s, hs, m, hm, _, hle, hwin⟩
      exact ⟨s, hs, m, hm, by omega, by omega⟩
    · rintro ⟨s, hs, m, hm, hle, hwin⟩
      intro hemp
      have : localMidnight now_local + 60 * (m : Int) ∈ ([] : List Int) := by
        rw [← hemp]
        exact (mem_resolve_candidates now_local slots _).mpr ⟨s, hs, m, hm, rfl, hle, by omega⟩
      cases this
  · intro t ht
    rw [resolve_due_slot] at ht
    refine ⟨(mem_resolve_candidates now_local slots t).mp (listMax_mem ht), ?_⟩
    intro s hs m hm hle hwin
    exact listMax_le ht
      ((mem_resolve_candidates now_local slots _).mpr ⟨s, hs, m, hm, rfl, hle, by omega⟩)

/-! ### Facts about `create_draft` -/

theorem get_by_hash_eq_some {db : List PostDraft} {h : Str} {d : PostDraft}
    (hd : get_by_hash db h = some d) : d ∈ db ∧ d.draft_hash = h := by
  refine ⟨List.mem_of_find?_eq_some hd, ?_⟩
  have := List.find?_some hd
  simpa using this

theorem get_by_hash_isSome {db : List PostDraft} {h : Str}
    (hex : ∃ d ∈ db, d.draft_hash = h) : ∃ e, get_by_hash db h = some e := by
  rcases hex with ⟨d, hmem, hh⟩
  cases hfind : get_by_hash db h with
  | some e => exact ⟨e, rfl⟩
  | none =>
      have := List.find?_eq_none.mp hfind d hmem
      simp [hh] at this

/-- **C3.** The draft hash is a pure function of (project id, source-item id,
template id, raw text); `create_draft` is idempotent in the hash: when a draft
with the hash already exists it is returned and the table is unchanged; when
the insert hits the unique-hash violation (a concurrent winner committed
between check and insert) the winner's row is returned and no new row is
added; two sequential creations with the same hash converge on one persisted
row. -/
theorem claim_C3 :
    (∀ p p' s s' t t' r r', p = p' → s = s' → t = t' → r = r' →
        compute_draft_hash p s t r = compute_draft_hash p' s' t' r') ∧
    (∀ (db : List PostDraft) (newId pid sid : Nat) (tid : Option Str)
        (tx h st : Str) (now : Int), (∃ d ∈ db, d.draft_hash = h) →
        (create_draft db db newId pid sid tid tx h st now).2 = db ∧
        (create_draft db db newId pid sid tid tx h st now).1 ∈ db ∧
        (create_draft db db newId pid sid tid tx h st now).1.draft_hash = h) ∧
    (∀ (checkDb commitDb : List PostDraft) (winner : PostDraft)
        (newId pid sid : Nat) (tid : Option Str) (tx h st : Str) (now : Int),
        get_by_hash checkDb h = none → get_by_hash commitDb h = some winner →
        create_draft checkDb commitDb newId pid sid tid tx h st now = (winner, commitDb)) ∧
    (∀ (db : List PostDraft) (id1 id2 pid sid : Nat) (tid : Option Str)
        (tx h st : Str) (n1 n2 : Int),
        create_draft (create_draft db db id1 pid sid tid tx h st n1).2
            (create_draft db db id1 pid sid tid tx h st n1).2 id2 pid sid tid tx h st n2 =
          ((create_draft db db id1 pid sid tid tx h st n1).1,
           (create_draft db db id1 pid sid tid tx h st n1).2)) := by
  refine ⟨?_, ?_, ?_, ?_⟩
  · intro p p' s s' t t' r r' hp hs ht hr
    subst hp; subst hs; subst ht; subst hr; rfl
  · intro db newId pid sid tid tx h st now hex
    rcases get_by_hash_isSome hex with ⟨e, he⟩
    rcases get_by_hash_eq_some he with ⟨hmem, hh⟩
    simp [create_draft, he, hmem, hh]
  · intro checkDb commitDb winner newId pid sid tid tx h st now h1 h2
    simp [create_draft, h1, h2]
  · intro db id1 id2 pid sid tid tx h st n1 n2
    cases hfind : get_by_hash db h with
    | some e =>
        have hh := (get_by_hash_eq_some hfind).2
        simp [create_draft, hfind]
    | none =>
        have hsnd : get_by_hash (db ++
            [(⟨id1, pid, sid, tid, tx, h, st, n1⟩ : PostDraft)]) h =
            some ⟨id1, pid, sid, tid, tx, h, st, n1⟩ := by
          rw [get_by_hash, List.find?_append]
          rw [get_by_hash] at hfind
          simp [hfind]
        simp [create_draft, hfind, hsnd]

/-- Witness for C3 at a concrete table: a one-row table whose row carries the
requested hash is returned unchanged, and a commit-time winner is handed to
the loser. -/
theorem claim_C3_witness :
    ((create_draft [⟨1, 1, 1, none, [], ['h'], "new".data, 0⟩]
        [⟨1, 1, 1, none, [], ['h'], "new".data, 0⟩] 2 1 1 none [] ['h'] "new".data 0).2 =
      [⟨1, 1, 1, none, [], ['h'], "new".data, 0⟩] ∧
     (create_draft [⟨1, 1, 1, none, [], ['h'], "new".data, 0⟩]
        [⟨1, 1, 1, none, [], ['h'], "new".data, 0⟩] 2 1 1 none [] ['h'] "new".data 0).1 ∈
      [(⟨1, 1, 1, none, [], ['h'], "new".data, 0⟩ : PostDraft)] ∧
     (create_draft [⟨1, 1, 1, none, [], ['h'], "new".data, 0⟩]
        [⟨1, 1, 1, none, [], ['h'], "new".data, 0⟩] 2 1 1 none [] ['h'] "new".data 0).1.draft_hash =
      ['h']) ∧
    create_draft [] [⟨1, 1, 1, none, [], ['h'], "new".data, 0⟩] 2 1 1 none [] ['h']
        "new".data 0 =
      (⟨1, 1, 1, none, [], ['h'], "new".data, 0⟩,
       [⟨1, 1, 1, none, [], ['h'], "new".data, 0⟩]) :=
  ⟨claim_C3.2.1 [⟨1, 1, 1, none, [], ['h'], "new".data, 0⟩] 2 1 1 none [] ['h'] "new".data 0
      ⟨⟨1, 1, 1, none, [], ['h'], "new".data, 0⟩, by decide, rfl⟩,
   claim_C3.2.2.1 [] [⟨1, 1, 1, none, [], ['h'], "new".data, 0⟩]
      ⟨1, 1, 1, none, [], ['h'], "new".data, 0⟩ 2 1 1 none [] ['h'] "new".data 0
      (by decide) (by decide)⟩

/-! ## Publication logs (`domain/models.py::PublicationLog`,
`repos/publication_logs.py`) -/

structure PublicationLog where
  id : Nat
  draft_id : Nat
  scheduled_at : Option Int
  published_at : Option Int
  status : Str
  tg_message_id : Option Str
  error_code : Option Str
  error_text : Option Str
deriving DecidableEq

/-- `PublicationLogRepository.get_by_draft_id`, whose `scalar_one_or_none()`
returns the row when the draft has exactly one, `None` when it has none, and
raises `MultipleResultsFound` (the `error` case) when it has several — a
state the schema allows, since a draft may hold an unscheduled row plus one
row per slot. -/
def log_get_by_draft_id (logs : List PublicationLog) (draft_id : Nat) :
    Except Unit (Option PublicationLog) :=
  match logs.filter (fun l => l.draft_id == draft_id) with
  | [] => .ok none
  | [l] => .ok (some l)
  | _ :: _ :: _ => .error ()

/-- `PublicationLogRepository.get_by_draft_and_scheduled`. -/
def log_get_by_draft_and_scheduled (logs : List PublicationLog) (draft_id : Nat)
    (scheduled_at : Int) : Option PublicationLog :=
  logs.find? (fun l => l.draft_id == draft_id && l.scheduled_at == some scheduled_at)

/-- The row `create_log` would insert. -/
def mkLog (newId draft_id : Nat) (status : Str) (tg_message_id : Option Str)
    (error_code error_text : Option Str) (published_at scheduled_at : Option Int) :
    PublicationLog :=
  ⟨newId, draft_id, scheduled_at, published_at, status, tg_message_id, error_code, error_text⟩

/-- `PublicationLogRepository.create_log`: with a scheduled time, reuse the
row for `(draft_id, scheduled_at)` when it exists; without one, reuse the
draft's single row when it has exactly one and insert a fresh row when it has
none — the lookup's `MultipleResultsFound` (the `error` case) propagates
before anything is inserted. -/
def create_log (logs : List PublicationLog) (newId draft_id : Nat) (status : Str)
    (tg_message_id : Option Str := none) (error_code : Option Str := none)
    (error_text : Option Str := none) (published_at : Option Int := none)
    (scheduled_at : Option Int := none) :
    Except Unit (PublicationLog × List PublicationLog) :=
  match scheduled_at with
  | some s =>
      match log_get_by_draft_and_scheduled logs draft_id s with
      | some existing => .ok (existing, logs)
      | none =>
          let log := mkLog newId draft_id status tg_message_id error_code error_text
            published_at scheduled_at
          .ok (log, logs ++ [log])
  | none =>
      match log_get_by_draft_id logs draft_id with
      | .error e => .error e
      | .ok (some existing) => .ok (existing, logs)
      | .ok none =>
          let log := mkLog newId draft_id status tg_message_id error_code error_text
            published_at scheduled_at
          .ok (log, logs ++ [log])

/-- The dual uniqueness rule of the publication-log table: two rows for the
same draft never carry the same `scheduled_at` value — in particular at most
one row per `(draft, slot)` and at most one unscheduled row per draft. -/
def LogInv (logs : List PublicationLog) : Prop :=
  logs.Pairwise (fun a b => a.draft_id = b.draft_id → a.scheduled_at ≠ b.scheduled_at)

/-- One `create_log` request (the arguments of one call). -/
structure LogReq where
  newId : Nat
  draft_id : Nat
  status : Str
  tg_message_id : Option Str
  error_code : Option Str
  error_text : Option Str
  published_at : Option Int
  scheduled_at : Option Int

/-- The table after one `create_log` call; a raising call (its `SELECT` comes
before any insert) leaves the table unchanged. -/
def applyLogReq (logs : List PublicationLog) (r : LogReq) : List PublicationLog :=
  match create_log logs r.newId r.draft_id r.status r.tg_message_id r.error_code
      r.error_text r.published_at r.scheduled_at with
  | .ok res => res.2
  | .error _ => logs

/-- Any sequence of `create_log` calls, applied in order. -/
def applyLogReqs (logs : List PublicationLog) (reqs : List LogReq) : List PublicationLog :=
  reqs.foldl applyLogReq logs

/-- The unscheduled lookup returns `none` exactly when the draft has no rows. -/
theorem log_get_by_draft_id_ok_none {logs : List PublicationLog} {d : Nat} :
    log_get_by_draft_id logs d = .ok none ↔
      logs.filter (fun l => l.draft_id == d) = [] := by
  rw [log_get_by_draft_id]
  cases hf : logs.filter (fun l => l.draft_id == d) with
  | nil => simp
  | cons a t => cases t <;> simp

/-- The unscheduled lookup returns a row only if it is the draft's row. -/
theorem log_get_by_draft_id_ok_some {logs : List PublicationLog} {d : Nat}
    {l : PublicationLog} (h : log_get_by_draft_id logs d = .ok (some l)) :
    l ∈ logs ∧ l.draft_id = d := by
  rw [log_get_by_draft_id] at h
  cases hf : logs.filter (fun x => x.draft_id == d) with
  | nil => rw [hf] at h; cases h
  | cons a t =>
      cases t with
      | nil =>
          rw [hf] at h
          simp only [Except.ok.injEq, Option.some.injEq] at h
          subst h
          have hmem : a ∈ logs.filter (fun x => x.draft_id == d) := by
            rw [hf]; exact List.mem_singleton.mpr rfl
          exact ⟨List.mem_of_mem_filter hmem, by simpa using List.of_mem_filter hmem⟩
      | cons b t2 => rw [hf] at h; cases h

theorem create_log_preserves_inv (logs : List PublicationLog) (r : LogReq)
    (hinv : LogInv logs) : LogInv (applyLogReq logs r) := by
  rw [applyLogReq, create_log.eq_def]
  cases hs : r.scheduled_at with
  | some s =>
      cases hfind : log_get_by_draft_and_scheduled logs r.draft_id s with
      | some existing => simpa [hfind] using hinv
      | none =>
          simp only [hfind]
          rw [LogInv, List.pairwise_append]
          refine ⟨hinv, by simp, ?_⟩
          intro a ha b hb hdraft
          simp only [List.mem_singleton] at hb
          subst hb
          have := List.find?_eq_none.mp hfind a ha
          simp only [Bool.and_eq_true, beq_iff_eq, not_and] at this
          intro hsched
          rw [mkLog] at hsched hdraft
          exact this (by simpa using hdraft) (by simpa using hsched)
  | none =>
      cases hfind : log_get_by_draft_id logs r.draft_id with
      | error e => simpa [hfind] using hinv
      | ok o =>
          cases o with
          | some existing => simpa [hfind] using hinv
          | none =>
              simp only [hfind]
              rw [LogInv, List.pairwise_append]
              refine ⟨hinv, by simp, ?_⟩
              intro a ha b hb hdraft
              simp only [List.mem_singleton] at hb
              subst hb
              have hfil := log_get_by_draft_id_ok_none.mp hfind
              have := List.filter_eq_nil_iff.mp hfil a ha
              rw [mkLog] at hdraft
              simp only [beq_iff_eq] at this
              exact absurd (by simpa using hdraft) this

/-- **C10 (amended).** Under every sequence of `create_log` calls starting
from a table satisfying the dual uniqueness rule, the rule is preserved: at
most one row per `(draft, scheduled_at)` pair when the slot is set and at most
one unscheduled row per draft.  A call that matches an existing row returns
that row and leaves the table unchanged whenever its lookup is unambiguous:
always for a scheduled call, and for an unscheduled call when the draft has
exactly one row; an unscheduled call for a draft that already holds several
rows raises `MultipleResultsFound` before inserting anything.  (The
unamended "returns the existing row" is false in that last case; see the
counterexample.) -/
theorem claim_C10 (logs : List PublicationLog) (reqs : List LogReq)
    (hinv : LogInv logs) :
    LogInv (applyLogReqs logs reqs) ∧
    (∀ (newId draft_id : Nat) (status : Str) (mid ec et : Option Str)
        (pub : Option Int) (s : Int) (existing : PublicationLog),
        log_get_by_draft_and_scheduled logs draft_id s = some existing →
        create_log logs newId draft_id status mid ec et pub (some s) =
          .ok (existing, logs)) ∧
    (∀ (newId draft_id : Nat) (status : Str) (mid ec et : Option Str)
        (pub : Option Int) (existing : PublicationLog),
        log_get_by_draft_id logs draft_id = .ok (some existing) →
        create_log logs newId draft_id status mid ec et pub none =
          .ok (existing, logs)) ∧
    (∀ (newId draft_id : Nat) (status : Str) (mid ec et : Option Str)
        (pub : Option Int),
        log_get_by_draft_id logs draft_id = .error () →
        create_log logs newId draft_id status mid ec et pub none = .error ()) := by
  refine ⟨?_, ?_, ?_, ?_⟩
  · induction reqs generalizing logs with
    | nil => exact hinv
    | cons r rest ih =>
        exact ih (applyLogReq logs r) (create_log_preserves_inv logs r hinv)
  · intro newId draft_id status mid ec et pub s existing hfind
    simp [create_log, hfind]
  · intro newId draft_id status mid ec et pub existing hfind
    simp [create_log, hfind]
  · intro newId draft_id status mid ec et pub hfind
    simp [create_log, hfind]

/-- Witness for C10 at a concrete two-row table (one scheduled, one
unscheduled row for draft 1): the invariant survives a colliding request and
the colliding scheduled call returns its existing row unchanged. -/
theorem claim_C10_witness :
    LogInv (applyLogReqs
      [⟨1, 1, some 100, some 100, "published".data, some ['m'], none, none⟩,
       ⟨2, 1, none, some 50, "published".data, some ['n'], none, none⟩]
      [⟨3, 1, "published".data, some ['o'], none, none, some 101, some 100⟩]) ∧
    create_log
      [⟨1, 1, some 100, some 100, "published".data, some ['m'], none, none⟩,
       ⟨2, 1, none, some 50, "published".data, some ['n'], none, none⟩]
      3 1 "published".data (some ['o']) none none (some 101) (some 100) =
      .ok (⟨1, 1, some 100, some 100, "published".data, some ['m'], none, none⟩,
       [⟨1, 1, some 100, some 100, "published".data, some ['m'], none, none⟩,
        ⟨2, 1, none, some 50, "published".data, some ['n'], none, none⟩]) := by
  have h := claim_C10
    [⟨1, 1, some 100, some 100, "published".data, some ['m'], none, none⟩,
     ⟨2, 1, none, some 50, "published".data, some ['n'], none, none⟩]
    [⟨3, 1, "published".data, some ['o'], none, none, some 101, some 100⟩]
    (by rw [LogInv]; decide)
  exact ⟨h.1, h.2.1 3 1 "published".data (some ['o']) none none (some 101) 100
    ⟨1, 1, some 100, some 100, "published".data, some ['m'], none, none⟩ (by decide)⟩

/-- **C10 counterexample.** A table satisfying the dual uniqueness rule in
which draft 1 holds an unscheduled row and a scheduled row — a state
`create_log` itself can build: both rows pass their respective lookups — on
which a further unscheduled `create_log` for draft 1 raises
`MultipleResultsFound` instead of returning the existing unscheduled row as
the claim states. -/
theorem claim_C10_counterexample :
    LogInv [⟨1, 1, none, some 50, "published".data, some ['m'], none, none⟩,
            ⟨2, 1, some 100, some 100, "published".data, some ['n'], none, none⟩] ∧
    (⟨1, 1, none, some 50, "published".data, some ['m'], none, none⟩ :
        PublicationLog) ∈
      [⟨1, 1, none, some 50, "published".data, some ['m'], none, none⟩,
       ⟨2, 1, some 100, some 100, "published".data, some ['n'], none, none⟩] ∧
    create_log
      [⟨1, 1, none, some 50, "published".data, some ['m'], none, none⟩,
       ⟨2, 1, some 100, some 100, "published".data, some ['n'], none, none⟩]
      3 1 "published".data (some ['o']) none none (some 101) none = .error () := by
  refine ⟨by rw [LogInv]; decide, by decide, by decide⟩


/-! ## Source items (`domain/models.py::SourceItem`, `repos/source_items.py`)
and the RSS entry loop of `services/rss_fetcher.py::fetch_and_save_source` -/

structure SourceItem where
  id : Nat
  source_id : Nat
  external_id : Str
  link : Str
  title : Str
  published_at : Option Int
  raw_text : Option Str
  facts_cache : Option Str
  content_hash : Str
  status : Str
deriving DecidableEq

/-- `SourceItemRepository.get_by_external_id`. -/
def item_get_by_external_id (db : List SourceItem) (source_id : Nat)
    (external_id : Str) : Option SourceItem :=
  db.find? (fun i => i.source_id == source_id && i.external_id == external_id)

/-- `SourceItemRepository.get_by_link`. -/
def item_get_by_link (db : List SourceItem) (source_id : Nat) (link : Str) :
    Option SourceItem :=
  db.find? (fun i => i.source_id == source_id && i.link == link)

def mkItem (newId source_id : Nat) (external_id link title : Str)
    (published_at : Option Int) (raw_text : Option Str) (facts_cache : Option Str)
    (content_hash : Str) (status : Str) : SourceItem :=
  ⟨newId, source_id, external_id, link, title, published_at, raw_text, facts_cache,
   content_hash, status⟩

/-- `SourceItemRepository.create_item`: check-then-insert with an
`IntegrityError` fallback.  The session reads `checkDb`; the commit runs
against `commitDb` (a sequential call has `commitDb = checkDb`).  The commit
raises `IntegrityError` exactly when one of the unique constraints —
`(source_id, external_id)` or `(source_id, link)` — is violated, and the
repository then rolls back and returns `None`. -/
def create_item (checkDb commitDb : List SourceItem) (newId source_id : Nat)
    (external_id link title : Str) (published_at : Option Int)
    (raw_text : Option Str) (facts_cache : Option Str) (content_hash : Str)
    (status : Str) : Option SourceItem × List SourceItem :=
  match item_get_by_external_id checkDb source_id external_id with
  | some _ => (none, commitDb)
  | none =>
      match item_get_by_link checkDb source_id link with
      | some _ => (none, commitDb)
      | none =>
          let item := mkItem newId source_id external_id link title published_at
            raw_text facts_cache content_hash status
          if (item_get_by_external_id commitDb source_id external_id).isSome
              || (item_get_by_link commitDb source_id link).isSome then
            (none, commitDb)
          else
            (some item, commitDb ++ [item])

/-- One parsed feed entry (the fields `fetch_and_save_source` reads from a
`feedparser` entry dict; `none` is an absent key). -/
structure FeedEntry where
  entry_id : Option Str
  link : Option Str
  title : Option Str
  summary : Option Str
  description : Option Str
  published : Option Int

/-- Python `a or b` for an optional string `a` (both a missing key and an
empty string are falsy). -/
def pyOrOpt (a : Option Str) (b : Str) : Str :=
  match a with
  | none => b
  | some s => if s = [] then b else s

/-- Python `a or b` on strings. -/
def pyOrStr (a b : Str) : Str := if a = [] then b else a

/-- `link = entry.get("link") or ""`. -/
def entryLink (e : FeedEntry) : Str := pyOrOpt e.link []

/-- `title = entry.get("title") or "(no title)"`. -/
def entryTitle (e : FeedEntry) : Str := pyOrOpt e.title "(no title)".data

/-- `external_id = entry.get("id") or link or title`. -/
def entryExternalId (e : FeedEntry) : Str :=
  pyOrOpt e.entry_id (pyOrStr (entryLink e) (entryTitle e))

/-- `raw_text = normalize_text(entry.get("summary") or entry.get("description") or "")`. -/
def entryRawText (e : FeedEntry) : Str :=
  normalize_text (pyOrOpt e.summary (pyOrOpt e.description []))

/-- The `for entry in _extract_entries(feed)` loop of
`fetch_and_save_source` (rss branch): save each entry through
`create_item`, counting saves and collecting created item ids.  Fresh
primary keys come from the `nextId` counter. -/
def processEntries (db : List SourceItem) (source_id nextId : Nat) :
    List FeedEntry → List SourceItem × Nat × List Nat
  | [] => (db, 0, [])
  | e :: rest =>
      let link := entryLink e
      let title := entryTitle e
      let res := create_item db db nextId source_id (entryExternalId e) link title
        e.published (some (entryRawText e)) none
        (compute_content_hash [link, title, entryRawText e]) "new".data
      let next := processEntries res.2 source_id (nextId + 1) rest
      match res.1 with
      | some item => (next.1, next.2.1 + 1, item.id :: next.2.2)
      | none => next

/-- The uniqueness invariant of the `source_items` table: within one source,
no two rows share an `external_id` and no two rows share a `link`. -/
def ItemInv (db : List SourceItem) : Prop :=
  db.Pairwise (fun a b => a.source_id = b.source_id →
    a.external_id ≠ b.external_id ∧ a.link ≠ b.link)

/-- The derived identity of entry `e` collides with a row already in `db`. -/
def entryCollides (source_id : Nat) (db : List SourceItem) (e : FeedEntry) : Prop :=
  ∃ i ∈ db, i.source_id = source_id ∧
    (i.external_id = entryExternalId e ∨ i.link = entryLink e)

theorem create_item_none_of_collision (checkDb commitDb : List SourceItem)
    (newId source_id : Nat) (external_id link title : Str)
    (published_at : Option Int) (raw_text facts_cache : Option Str)
    (content_hash status : Str)
    (hcol : ∃ i ∈ checkDb, i.source_id = source_id ∧
      (i.external_id = external_id ∨ i.link = link)) :
    create_item checkDb commitDb newId source_id external_id link title
      published_at raw_text facts_cache content_hash status = (none, commitDb) := by
  rw [create_item.eq_def]
  cases hext : item_get_by_external_id checkDb source_id external_id with
  | some e => rfl
  | none =>
      cases hlnk : item_get_by_link checkDb source_id link with
      | some e => rfl
      | none =>
          exfalso
          rcases hcol with ⟨i, hmem, hsid, hor⟩
          rcases hor with h | h
          · have := List.find?_eq_none.mp hext i hmem
            simp [hsid, h] at this
          · have := List.find?_eq_none.mp hlnk i hmem
            simp [hsid, h] at this

theorem create_item_cases (db : List SourceItem) (newId source_id : Nat)
    (external_id link title : Str) (published_at : Option Int)
    (raw_text facts_cache : Option Str) (content_hash status : Str) :
    (create_item db db newId source_id external_id link title published_at
        raw_text facts_cache content_hash status = (none, db) ∧
      ∃ i ∈ db, i.source_id = source_id ∧
        (i.external_id = external_id ∨ i.link = link)) ∨
    (create_item db db newId source_id external_id link title published_at
        raw_text facts_cache content_hash status =
      (some (mkItem newId source_id external_id link title published_at raw_text
        facts_cache content_hash status),
       db ++ [mkItem newId source_id external_id link title published_at raw_text
        facts_cache content_hash status])) := by
  rw [create_item.eq_def]
  cases hext : item_get_by_external_id db source_id external_id with
  | some e =>
      left
      refine ⟨rfl, e, List.mem_of_find?_eq_some hext, ?_⟩
      have := List.find?_some hext
      simp only [Bool.and_eq_true, beq_iff_eq] at this
      exact ⟨this.1, Or.inl this.2⟩
  | none =>
      cases hlnk : item_get_by_link db source_id link with
      | some e =>
          left
          refine ⟨rfl, e, List.mem_of_find?_eq_some hlnk, ?_⟩
          have := List.find?_some hlnk
          simp only [Bool.and_eq_true, beq_iff_eq] at this
          exact ⟨this.1, Or.inr this.2⟩
      | none =>
          right
          simp [hext, hlnk]

/-- `create_item` preserves the table uniqueness invariant. -/
theorem create_item_preserves_inv (checkDb commitDb : List SourceItem)
    (newId source_id : Nat) (external_id link title : Str)
    (published_at : Option Int) (raw_text facts_cache : Option Str)
    (content_hash status : Str) (hinv : ItemInv commitDb) :
    ItemInv (create_item checkDb commitDb newId source_id external_id link title
      published_at raw_text facts_cache content_hash status).2 := by
  rw [create_item.eq_def]
  cases hext : item_get_by_external_id checkDb source_id external_id with
  | some e => exact hinv
  | none =>
      cases hlnk : item_get_by_link checkDb source_id link with
      | some e => exact hinv
      | none =>
          simp only []
          split_ifs with hguard
          · exact hinv
          · simp only [Bool.or_eq_true, Option.isSome_iff_exists, not_or,
              not_exists] at hguard
            have hext2 : item_get_by_external_id commitDb source_id external_id = none := by
              cases hx : item_get_by_external_id commitDb source_id external_id with
              | none => rfl
              | some y => exact absurd hx (hguard.1 y)
            have hlnk2 : item_get_by_link commitDb source_id link = none := by
              cases hx : item_get_by_link commitDb source_id link with
              | none => rfl
              | some y => exact absurd hx (hguard.2 y)
            rw [ItemInv, List.pairwise_append]
            refine ⟨hinv, by simp, ?_⟩
            intro a ha b hb
            simp only [List.mem_singleton] at hb
            subst hb
            intro hsid
            have h1 := List.find?_eq_none.mp hext2 a ha
            have h2 := List.find?_eq_none.mp hlnk2 a ha
            rw [mkItem] at hsid ⊢
            simp only [Bool.and_eq_true, beq_iff_eq, not_and] at h1 h2
            exact ⟨h1 (by simpa using hsid), h2 (by simpa using hsid)⟩

/-- The entry loop only appends rows. -/
theorem processEntries_extends (entries : List FeedEntry) :
    ∀ (db : List SourceItem) (source_id nextId : Nat),
    ∃ tail, (processEntries db source_id nextId entries).1 = db ++ tail := by
  induction entries with
  | nil => intro db sid nid; exact ⟨[], by simp [processEntries]⟩
  | cons e rest ih =>
      intro db sid nid
      rw [processEntries]
      rcases create_item_cases db nid sid (entryExternalId e) (entryLink e)
        (entryTitle e) e.published (some (entryRawText e)) none
        (compute_content_hash [entryLink e, entryTitle e, entryRawText e])
        "new".data with ⟨heq, -⟩ | heq
      · rw [heq]
        rcases ih db sid (nid + 1) with ⟨tail, htail⟩
        exact ⟨tail, by simpa using htail⟩
      · rw [heq]
        rcases ih (db ++ [mkItem nid sid (entryExternalId e) (entryLink e)
          (entryTitle e) e.published (some (entryRawText e)) none
          (compute_content_hash [entryLink e, entryTitle e, entryRawText e])
          "new".data]) sid (nid + 1) with ⟨tail, htail⟩
        refine ⟨mkItem nid sid (entryExternalId e) (entryLink e)
          (entryTitle e) e.published (some (entryRawText e)) none
          (compute_content_hash [entryLink e, entryTitle e, entryRawText e])
          "new".data :: tail, ?_⟩
        simpa using htail

/-- After one run of the entry loop, every entry's derived identity collides
with some persisted row. -/
theorem processEntries_all_collide (entries : List FeedEntry) :
    ∀ (db : List SourceItem) (source_id nextId : Nat), ∀ e ∈ entries,
    entryCollides source_id (processEntries db source_id nextId entries).1 e := by
  induction entries with
  | nil => intro db sid nid e he; cases he
  | cons e0 rest ih =>
      intro db sid nid e he
      rw [processEntries]
      rcases create_item_cases db nid sid (entryExternalId e0) (entryLink e0)
        (entryTitle e0) e0.published (some (entryRawText e0)) none
        (compute_content_hash [entryLink e0, entryTitle e0, entryRawText e0])
        "new".data with ⟨heq, i, hmem, hprop⟩ | heq
      · rw [heq]
        simp only []
        rcases List.mem_cons.mp he with rfl | hrest
        · rcases processEntries_extends rest db sid (nid + 1) with ⟨tail, htail⟩
          cases hres : (create_item db db nid sid (entryExternalId e) (entryLink e)
            (entryTitle e) e.published (some (entryRawText e)) none
            (compute_content_hash [entryLink e, entryTitle e, entryRawText e])
            "new".data).1
          · exact ⟨i, by rw [htail]; exact List.mem_append_left _ hmem, hprop⟩
          · exact ⟨i, by rw [htail]; exact List.mem_append_left _ hmem, hprop⟩
        · have := ih db sid (nid + 1) e hrest
          cases hres : (create_item db db nid sid (entryExternalId e0) (entryLink e0)
            (entryTitle e0) e0.published (some (entryRawText e0)) none
            (compute_content_hash [entryLink e0, entryTitle e0, entryRawText e0])
            "new".data).1
          · exact this
          · exact this
      · rw [heq]
        simp only []
        rcases List.mem_cons.mp he with rfl | hrest
        · rcases processEntries_extends rest (db ++ [mkItem nid sid (entryExternalId e)
            (entryLink e) (entryTitle e) e.published (some (entryRawText e)) none
            (compute_content_hash [entryLink e, entryTitle e, entryRawText e])
            "new".data]) sid (nid + 1) with ⟨tail, htail⟩
          refine ⟨mkItem nid sid (entryExternalId e) (entryLink e) (entryTitle e)
            e.published (some (entryRawText e)) none
            (compute_content_hash [entryLink e, entryTitle e, entryRawText e])
            "new".data, ?_, rfl, Or.inl rfl⟩
          rw [htail]
          exact List.mem_append_left _ (List.mem_append_right _ (List.mem_singleton.mpr rfl))
        · exact ih _ sid (nid + 1) e hrest

/-- If every entry already collides, the loop is a no-op that saves nothing. -/
theorem processEntries_noop (entries : List FeedEntry) :
    ∀ (db : List SourceItem) (source_id nextId : Nat),
    (∀ e ∈ entries, entryCollides source_id db e) →
    processEntries db source_id nextId entries = (db, 0, []) := by
  induction entries with
  | nil => intro db sid nid _; rfl
  | cons e rest ih =>
      intro db sid nid hall
      rw [processEntries]
      have hnone := create_item_none_of_collision db db nid sid (entryExternalId e)
        (entryLink e) (entryTitle e) e.published (some (entryRawText e)) none
        (compute_content_hash [entryLink e, entryTitle e, entryRawText e])
        "new".data (hall e (List.mem_cons_self _ _))
      rw [hnone]
      simp only []
      exact ih db sid (nid + 1) (fun x hx => hall x (List.mem_cons_of_mem _ hx))

/-- **C7.** An attempted insert of a source item that collides on
`(source, external_id)` or `(source, link)` is silently dropped (`None`, table
unchanged); `create_item` preserves the invariant that no two rows of a source
share an external id or a link; and running the fetch loop a second time over
the same entries saves nothing and leaves the table unchanged. -/
theorem claim_C7 :
    (∀ (checkDb commitDb : List SourceItem) (newId source_id : Nat)
        (external_id link title : Str) (published_at : Option Int)
        (raw_text facts_cache : Option Str) (content_hash status : Str),
        (∃ i ∈ checkDb, i.source_id = source_id ∧
          (i.external_id = external_id ∨ i.link = link)) →
        create_item checkDb commitDb newId source_id external_id link title
          published_at raw_text facts_cache content_hash status = (none, commitDb)) ∧
    (∀ (checkDb commitDb : List SourceItem) (newId source_id : Nat)
        (external_id link title : Str) (published_at : Option Int)
        (raw_text facts_cache : Option Str) (content_hash status : Str),
        ItemInv commitDb →
        ItemInv (create_item checkDb commitDb newId source_id external_id link title
          published_at raw_text facts_cache content_hash status).2) ∧
    (∀ (db : List SourceItem) (source_id id0 id1 : Nat) (entries : List FeedEntry),
        processEntries (processEntries db source_id id0 entries).1 source_id id1 entries =
          ((processEntries db source_id id0 entries).1, 0, [])) := by
  refine ⟨create_item_none_of_collision, create_item_preserves_inv, ?_⟩
  intro db sid id0 id1 entries
  exact processEntries_noop entries _ sid id1
    (processEntries_all_collide entries db sid id0)

/-- Witness for C7 at concrete tables: a colliding insert is dropped and the
invariant survives an insert into a one-row table. -/
theorem claim_C7_witness :
    create_item [mkItem 1 7 ['x'] ['l'] [] none none none [] "new".data]
        [mkItem 1 7 ['x'] ['l'] [] none none none [] "new".data]
        2 7 ['x'] ['k'] [] none none none [] "new".data =
      (none, [mkItem 1 7 ['x'] ['l'] [] none none none [] "new".data]) ∧
    ItemInv (create_item [mkItem 1 7 ['x'] ['l'] [] none none none [] "new".data]
        [mkItem 1 7 ['x'] ['l'] [] none none none [] "new".data]
        2 7 ['y'] ['k'] [] none none none [] "new".data).2 :=
  ⟨claim_C7.1 [mkItem 1 7 ['x'] ['l'] [] none none none [] "new".data]
      [mkItem 1 7 ['x'] ['l'] [] none none none [] "new".data]
      2 7 ['x'] ['k'] [] none none none [] "new".data
      ⟨mkItem 1 7 ['x'] ['l'] [] none none none [] "new".data,
        List.mem_singleton.mpr rfl, rfl, Or.inl rfl⟩,
   claim_C7.2.1 [mkItem 1 7 ['x'] ['l'] [] none none none [] "new".data]
      [mkItem 1 7 ['x'] ['l'] [] none none none [] "new".data]
      2 7 ['y'] ['k'] [] none none none [] "new".data
      (by rw [ItemInv]; decide)⟩

/-! ## Sources (`domain/models.py::Source`, `repos/sources.py`) and
`services/rss_fetcher.py::fetch_and_save_source` -/

structure Source where
  id : Nat
  project_id : Nat
  url : Str
  type : Str
  status : Str
  last_fetch_at : Option Int
  last_error : Option Str
  consecutive_failures : Nat
deriving DecidableEq

/-- `SourceRepository.get_by_id`. -/
def source_get_by_id (db : List Source) (source_id : Nat) : Option Source :=
  db.find? (fun s => s.id == source_id)

/-- `SourceRepository.update_status`: set status, last error and the
last-fetch stamp, and overwrite the failure counter when one is passed;
returns the refreshed row (`none` when the source is missing). -/
def source_update_status (db : List Source) (source_id : Nat) (status : Str)
    (last_error : Option Str) (consecutive_failures : Option Nat) (now : Int) :
    List Source × Option Source :=
  match source_get_by_id db source_id with
  | none => (db, none)
  | some s =>
      let s' : Source :=
        { s with
          status := status
          last_error := last_error
          last_fetch_at := some now
          consecutive_failures := consecutive_failures.getD s.consecutive_failures }
      (db.map (fun t => if t.id == source_id then s' else t), some s')

/-- A failed fetch, as classified by the `except` clauses of
`fetch_and_save_source`. -/
inductive FetchErr where
  | timeout
  | httpStatus (code : Nat)
  | other (msg : Str)
deriving DecidableEq

/-- The error message the handlers record (`"timeout"`, `f"HTTP {code}"`,
`str(exc)`). -/
def errMessage : FetchErr → Str
  | .timeout => "timeout".data
  | .httpStatus code => "HTTP ".data ++ decChars code
  | .other msg => msg

/-- The environment of one fetch run: the outcome of the outbound network
call (and, for `url` sources, of the `extract_text_from_html` HTML
processing, an external-library boundary), the clock, and the
settings/queue context. -/
structure FetchEnv where
  rssResult : Except FetchErr (List FeedEntry)
  urlResult : Except FetchErr (Option Str × Str)
  now : Int
  failThreshold : Nat
  hasTaskQueue : Bool
  lockAcquired : Bool
  maxGenerate : Nat

/-- The value returned and the state left behind by one
`fetch_and_save_source` call. -/
structure FetchRunResult where
  source : Option Source
  saved : Nat
  sources : List Source
  items : List SourceItem
  enqueued : List Nat
deriving DecidableEq

/-- `_handle_fetch_error` (and the structurally identical generic
`except Exception` handler): bump the failure counter, flip the status to
`error` — or `broken` at the threshold — record the message, stamp the fetch
time, and hand back `(source, 0)`. -/
def handle_fetch_error (env : FetchEnv) (sources : List Source)
    (items : List SourceItem) (source : Source) (f : FetchErr) : FetchRunResult :=
  let new_failures := source.consecutive_failures + 1
  let status := if env.failThreshold ≤ new_failures then "broken".data else "error".data
  let upd := source_update_status sources source.id status (some (errMessage f))
    (some new_failures) env.now
  ⟨upd.2, 0, upd.1, items, []⟩

/-- `services/rss_fetcher.py::fetch_and_save_source`.  All failure paths are
caught inside the function (it always returns a `(source, savedCount)` pair);
item primary keys come from the `nextItemId` counter. -/
def fetch_and_save_source (env : FetchEnv) (sources : List Source)
    (items : List SourceItem) (nextItemId source_id : Nat) : FetchRunResult :=
  match source_get_by_id sources source_id with
  | none => ⟨none, 0, sources, items, []⟩
  | some source =>
      if source.type = "url".data then
        match env.urlResult with
        | .error f => handle_fetch_error env sources items source f
        | .ok (title, raw_text) =>
            let link := source.url
            let content_hash := compute_content_hash [link, pyOrOpt title [], raw_text]
            let res := create_item items items nextItemId source.id link link
              (pyOrOpt title "(no title)".data) none (some raw_text) none
              content_hash "new".data
            let created := match res.1 with | some item => [item.id] | none => []
            let upd := source_update_status sources source.id "ok".data none
              (some 0) env.now
            let enqueued :=
              if created ≠ [] ∧ env.hasTaskQueue ∧ env.lockAcquired then
                created.take env.maxGenerate
              else []
            ⟨upd.2, created.length, upd.1, res.2, enqueued⟩
      else
        match env.rssResult with
        | .error f => handle_fetch_error env sources items source f
        | .ok entries =>
            let res := processEntries items source.id nextItemId entries
            let upd := source_update_status sources source.id "ok".data none
              (some 0) env.now
            let enqueued :=
              if res.2.2 ≠ [] ∧ env.hasTaskQueue ∧ env.lockAcquired then
                res.2.2.take env.maxGenerate
              else []
            ⟨upd.2, res.2.1, upd.1, res.1, enqueued⟩

/-- **C8.** `fetch_and_save_source` recovers every fetch failure locally: it
returns the `(source, 0)` pair with the failure counter incremented, status
`error` — or `broken` once the counter reaches the threshold — the error
message recorded and the last-fetch time stamped; and on every successful
fetch it resets the counter to 0, sets status `ok`, clears the last error and
stamps the fetch time. -/
theorem claim_C8 (env : FetchEnv) (sources : List Source) (items : List SourceItem)
    (nextItemId source_id : Nat) (src : Source)
    (hfind : source_get_by_id sources source_id = some src) :
    (∀ f : FetchErr,
      ((src.type = "url".data ∧ env.urlResult = .error f) ∨
       (src.type ≠ "url".data ∧ env.rssResult = .error f)) →
      fetch_and_save_source env sources items nextItemId source_id =
        ⟨some { src with
            status := if env.failThreshold ≤ src.consecutive_failures + 1
              then "broken".data else "error".data
            last_error := some (errMessage f)
            last_fetch_at := some env.now
            consecutive_failures := src.consecutive_failures + 1 },
          0,
          sources.map (fun t => if t.id == src.id then
            { src with
              status := if env.failThreshold ≤ src.consecutive_failures + 1
                then "broken".data else "error".data
              last_error := some (errMessage f)
              last_fetch_at := some env.now
              consecutive_failures := src.consecutive_failures + 1 } else t),
          items, []⟩) ∧
    (((src.type = "url".data ∧ (∃ p, env.urlResult = .ok p)) ∨
      (src.type ≠ "url".data ∧ (∃ es, env.rssResult = .ok es))) →
      ∃ u, (fetch_and_save_source env sources items nextItemId source_id).source = some u ∧
        u.status = "ok".data ∧ u.consecutive_failures = 0 ∧
        u.last_error = none ∧ u.last_fetch_at = some env.now) := by
  have hid : src.id = source_id := by
    have := List.find?_some hfind
    simpa using this
  constructor
  · intro f hf
    rw [fetch_and_save_source, hfind]
    simp only []
    rcases hf with ⟨hty, hres⟩ | ⟨hty, hres⟩
    · rw [if_pos hty, hres]
      simp [handle_fetch_error, source_update_status, hid, hfind]
    · rw [if_neg hty, hres]
      simp [handle_fetch_error, source_update_status, hid, hfind]
  · intro hok
    rw [fetch_and_save_source, hfind]
    simp only []
    rcases hok with ⟨hty, p, hres⟩ | ⟨hty, es, hres⟩
    · rw [if_pos hty, hres]
      obtain ⟨t, rt⟩ := p
      refine ⟨⟨src.id, src.project_id, src.url, src.type, "ok".data,
        some env.now, none, 0⟩, ?_, rfl, rfl, rfl, rfl⟩
      simp [source_update_status, hid, hfind]
    · rw [if_neg hty, hres]
      refine ⟨⟨src.id, src.project_id, src.url, src.type, "ok".data,
        some env.now, none, 0⟩, ?_, rfl, rfl, rfl, rfl⟩
      simp [source_update_status, hid, hfind]

/-- Witness for C8 at a concrete source table: a timed-out fetch of an
`rss` source with two prior failures and threshold 3 goes `broken`, records
`"timeout"`, stamps the clock and saves nothing. -/
theorem claim_C8_witness :
    fetch_and_save_source
        ⟨Except.error FetchErr.timeout, Except.ok (none, []), 500, 3, false, false, 5⟩
        [⟨4, 9, "u".data, "rss".data, "ok".data, none, none, 2⟩] [] 1 4 =
      ⟨some ⟨4, 9, "u".data, "rss".data, "broken".data, some 500, some "timeout".data, 3⟩,
       0,
       [⟨4, 9, "u".data, "rss".data, "broken".data, some 500, some "timeout".data, 3⟩],
       [], []⟩ := by
  have h := (claim_C8
    ⟨Except.error FetchErr.timeout, Except.ok (none, []), 500, 3, false, false, 5⟩
    [⟨4, 9, "u".data, "rss".data, "ok".data, none, none, 2⟩] [] 1 4
    ⟨4, 9, "u".data, "rss".data, "ok".data, none, none, 2⟩ (by decide)).1
    FetchErr.timeout (Or.inr ⟨by decide, rfl⟩)
  exact h.trans (by decide)

/-! ## Post rendering (`services/draft_service.py::DraftService._render_post`,
post-processing part) -/

/-- The link-appending step of `_render_post`: when the link is not a
substring of the normalised backend output, trim the body to
`max_post_len - len(link) - 1` characters (clamped at 0) and append a space
and the link, stripping the result. -/
def render_append_step (content lnk : Str) (maxLen : Nat) : Str :=
  if ¬ (lnk <:+: content) then
    let available := maxLen - lnk.length - 1
    let content2 := if available < content.length then content.take available else content
    strip (content2 ++ ' ' :: lnk)
  else content

/-- The final `if len(content) > max_post_len: content = content[:max_post_len]`
safety net. -/
def hard_truncate (s : Str) (maxLen : Nat) : Str :=
  if maxLen < s.length then s.take maxLen else s

/-- The post-processing tail of `_render_post`: normalise the backend output,
append the link when missing, hard-truncate. -/
def render_post_text (output lnk : Str) (maxLen : Nat) : Str :=
  hard_truncate (render_append_step (normalize_text output) lnk maxLen) maxLen

/-! ### Facts about `strip` -/

theorem rstrip_length_le (s : Str) : (rstrip s).length ≤ s.length := by
  rw [rstrip]
  calc ((s.reverse.dropWhile isWs).reverse).length
      = (s.reverse.dropWhile isWs).length := List.length_reverse _
    _ ≤ s.reverse.length := dropWhile_length_le _ _
    _ = s.length := List.length_reverse _

theorem dropWhile_eq_self_of_len (p : α → Bool) (l : List α)
    (h : (l.dropWhile p).length = l.length) : l.dropWhile p = l := by
  cases l with
  | nil => rfl
  | cons a t =>
      by_cases hp : p a
      · rw [List.dropWhile_cons_of_pos hp] at h ⊢
        have := dropWhile_length_le p t
        simp only [List.length_cons] at h
        omega
      · exact List.dropWhile_cons_of_neg hp

theorem dropWhile_eq_self_of_head (p : α → Bool) (l : List α)
    (h : ∀ c, l.head? = some c → p c = false) : l.dropWhile p = l := by
  cases l with
  | nil => rfl
  | cons a t => exact List.dropWhile_cons_of_neg (by simp [h a rfl])

theorem head_false_of_dropWhile_eq_self (p : α → Bool) (l : List α)
    (h : l.dropWhile p = l) : ∀ c, l.head? = some c → p c = false := by
  intro c hc
  cases l with
  | nil => cases hc
  | cons a t =>
      cases hc
      by_cases hp : p c
      · rw [List.dropWhile_cons_of_pos hp] at h
        have h1 := dropWhile_length_le p t
        have h2 := congrArg List.length h
        simp only [List.length_cons] at h2
        omega
      · simpa using hp

theorem strip_eq_self_split (l : Str) (h : strip l = l) :
    lstrip l = l ∧ rstrip l = l := by
  have h1 : (lstrip l).length ≤ l.length := dropWhile_length_le _ _
  have h2 : (strip l).length ≤ (lstrip l).length := rstrip_length_le _
  have h3 : (strip l).length = l.length := by rw [h]
  have h4 : (lstrip l).length = l.length := by omega
  have h5 : lstrip l = l := dropWhile_eq_self_of_len _ _ h4
  refine ⟨h5, ?_⟩
  rw [strip, h5] at h
  exact h

theorem suffix_dropWhile_append (p : α → Bool) (a b : List α)
    (hb : ∀ c, b.head? = some c → p c = false) : b <:+ (a ++ b).dropWhile p := by
  induction a with
  | nil =>
      rw [List.nil_append, dropWhile_eq_self_of_head p b hb]
  | cons x a' ih =>
      by_cases hp : p x
      · rw [List.cons_append, List.dropWhile_cons_of_pos hp]
        exact ih
      · rw [List.cons_append, List.dropWhile_cons_of_neg hp]
        exact (List.suffix_append a' b).trans (List.suffix_cons x (a' ++ b))

theorem rstrip_eq_self_of_suffix (lnk m : Str) (hne : lnk ≠ [])
    (hlast : ∀ c, lnk.getLast? = some c → isWs c = false) (hsuf : lnk <:+ m) :
    rstrip m = m := by
  obtain ⟨u, rfl⟩ := hsuf
  rw [rstrip, List.reverse_append]
  have hrev : lnk.reverse ≠ [] := by simpa using hne
  have hhead : ∀ c, (lnk.reverse ++ u.reverse).head? = some c → isWs c = false := by
    intro c hc
    apply hlast c
    rw [← List.head?_reverse]
    cases hx : lnk.reverse with
    | nil => exact absurd hx hrev
    | cons y t =>
        rw [hx] at hc
        simp only [List.cons_append, List.head?_cons] at hc ⊢
        exact hc
  rw [dropWhile_eq_self_of_head isWs _ hhead, List.reverse_append,
    List.reverse_reverse, List.reverse_reverse]

/-- Extract from `strip lnk = lnk` that the link has no leading and no
trailing whitespace character. -/
theorem strip_eq_self_edges (lnk : Str) (h : strip lnk = lnk) :
    (∀ c, lnk.head? = some c → isWs c = false) ∧
    (∀ c, lnk.getLast? = some c → isWs c = false) := by
  obtain ⟨hl, hr⟩ := strip_eq_self_split lnk h
  refine ⟨head_false_of_dropWhile_eq_self isWs lnk hl, ?_⟩
  intro c hc
  have hrr : lnk.reverse.dropWhile isWs = lnk.reverse := by
    have := congrArg List.reverse hr
    rw [rstrip, List.reverse_reverse] at this
    exact this
  exact head_false_of_dropWhile_eq_self isWs lnk.reverse hrr c
    (by rw [List.head?_reverse]; exact hc)

/-- **C9 (amended).** The rendered post text is always at most
`max_post_len` characters long; it contains the source link provided the link
carries no surrounding whitespace, the link itself fits the limit, and — when
the normalised backend output already contains the link — that output fits the
limit.  (The unamended containment fails when the link exceeds the limit or
the output contains the link but overflows: the final hard truncation then
cuts the link; see the counterexample.) -/
theorem claim_C9 (output lnk : Str) (maxLen : Nat) :
    (render_post_text output lnk maxLen).length ≤ maxLen ∧
    (strip lnk = lnk → lnk.length ≤ maxLen →
      (lnk <:+: normalize_text output → (normalize_text output).length ≤ maxLen) →
      lnk <:+: render_post_text output lnk maxLen) := by
  constructor
  · rw [render_post_text, hard_truncate]
    split_ifs with h
    · rw [List.length_take]; omega
    · omega
  · intro hstrip hfit hin
    obtain ⟨hhead, hlast⟩ := strip_eq_self_edges lnk hstrip
    by_cases hc : lnk <:+: normalize_text output
    · have hlen := hin hc
      rw [render_post_text, render_append_step, if_neg (by simpa using hc),
        hard_truncate, if_neg (by omega)]
      exact hc
    · have hne : lnk ≠ [] := by
        rintro rfl
        exact hc ⟨[], normalize_text output, by simp⟩
      rw [render_post_text, render_append_step, if_pos (by simpa using hc)]
      simp only []
      set content := normalize_text output with hcontent
      set available := maxLen - lnk.length - 1 with hav
      set content2 := if available < content.length then content.take available
        else content with hc2
      have hmid : content2 ++ ' ' :: lnk = (content2 ++ [' ']) ++ lnk := by simp
      have hsuf : lnk <:+ lstrip (content2 ++ ' ' :: lnk) := by
        rw [hmid]
        exact suffix_dropWhile_append isWs (content2 ++ [' ']) lnk hhead
      have hstrip_mid : strip (content2 ++ ' ' :: lnk) = lstrip (content2 ++ ' ' :: lnk) :=
        rstrip_eq_self_of_suffix lnk _ hne hlast hsuf
      by_cases hroom : lnk.length + 1 ≤ maxLen
      · have hcl : content2.length ≤ available := by
          rw [hc2]
          split_ifs with ht
          · rw [List.length_take]; omega
          · omega
        have hlenmid : (lstrip (content2 ++ ' ' :: lnk)).length ≤ maxLen := by
          have h1 := dropWhile_length_le isWs (content2 ++ ' ' :: lnk)
          have h2 : (content2 ++ ' ' :: lnk).length =
              content2.length + 1 + lnk.length := by
            rw [List.length_append, List.length_cons]
            omega
          rw [lstrip]
          omega
        rw [hard_truncate, hstrip_mid, if_neg (by omega)]
        exact hsuf.isInfix
      · have hmaxeq : lnk.length = maxLen := by omega
        have hav0 : available = 0 := by omega
        have hc2nil : content2 = [] := by
          rw [hc2, hav0]
          split_ifs with ht
          · exact List.take_zero content
          · have : content.length = 0 := by omega
            exact List.length_eq_zero.mp this
        have hlstrip : lstrip (content2 ++ ' ' :: lnk) = lnk := by
          rw [hc2nil, List.nil_append, lstrip, List.dropWhile_cons_of_pos (by rfl)]
          exact dropWhile_eq_self_of_head isWs lnk hhead
        rw [hard_truncate, hstrip_mid, hlstrip, if_neg (by omega)]

/-- Witness for C9: a link without surrounding whitespace that fits the limit
ends up contained in the rendered text. -/
theorem claim_C9_witness :
    (render_post_text "hi".data "ab".data 9).length ≤ 9 ∧
    "ab".data <:+: render_post_text "hi".data "ab".data 9 :=
  ⟨(claim_C9 "hi".data "ab".data 9).1,
   (claim_C9 "hi".data "ab".data 9).2 (by decide) (by decide) (by decide)⟩

/-- **C9 counterexample.** With backend output `"cccccab"`, link `"ab"` and
positive max post length 5, the rendered text is `"ccccc"`: its length
respects the limit but it does not contain the link, contradicting the
claim's unconditional containment. -/
theorem claim_C9_counterexample :
    0 < 5 ∧ render_post_text "cccccab".data "ab".data 5 = "ccccc".data ∧
    ¬ ("ab".data <:+: render_post_text "cccccab".data "ab".data 5) := by
  refine ⟨by decide, by decide, by decide⟩

/-! ## Publication engine (`services/publication_service.py`) -/

structure ChannelBinding where
  id : Nat
  project_id : Nat
  channel_id : Str
  status : Str
deriving DecidableEq

/-- `ChannelBindingRepository.get_by_project_id`. -/
def channel_get_by_project_id (db : List ChannelBinding) (project_id : Nat) :
    Option ChannelBinding :=
  db.find? (fun c => c.project_id == project_id)

structure UsageCounter where
  project_id : Nat
  day : Int
  drafts_generated : Nat
  posts_published : Nat
  llm_calls : Nat
  tokens_est : Nat
deriving DecidableEq

/-- `UsageCounterRepository.increment`: additive upsert on `(project, day)`. -/
def usage_increment (db : List UsageCounter) (project_id : Nat) (day : Int)
    (drafts_generated posts_published llm_calls tokens_est : Nat) : List UsageCounter :=
  match db.find? (fun u => u.project_id == project_id && u.day == day) with
  | some _ =>
      db.map (fun u =>
        if u.project_id == project_id && u.day == day then
          { u with
            drafts_generated := u.drafts_generated + drafts_generated
            posts_published := u.posts_published + posts_published
            llm_calls := u.llm_calls + llm_calls
            tokens_est := u.tokens_est + tokens_est }
        else u)
  | none =>
      db ++ [⟨project_id, day, drafts_generated, posts_published, llm_calls, tokens_est⟩]

/-- Modelled from the spec: `shared/idempotency.py` (imported by
`publication_service.py` as `IdempotencyStore` / `InMemoryIdempotencyStore`)
is not in the source tree.  Per spec §4.5 the idempotency store offers
`acquire(key, ttl) → bool`, the same atomic set-if-absent-with-expiry
primitive as the lock store, whose in-memory variant (`shared/lock.py::
InMemoryLockStore`) keeps a key → monotonic-clock-expiry map: acquisition
fails while the stored expiry lies in the future, otherwise the key is
(re)stored with expiry `now + ttl`.  The map is the association list
`entries`. -/
def idem_expiry (entries : List (Str × Int)) (key : Str) : Int :=
  ((entries.find? (fun e => e.1 == key)).map Prod.snd).getD 0

def idem_acquire (entries : List (Str × Int)) (now : Int) (key : Str) (ttl : Nat) :
    Bool × List (Str × Int) :=
  if now < idem_expiry entries key then
    (false, entries)
  else
    (true, (key, now + (ttl : Int)) :: entries.filter (fun e => ¬ e.1 == key))

/-- The idempotency key `f"publish:{draft_id}"`. -/
def publish_key (draft_id : Nat) : Str := "publish:".data ++ decChars draft_id

/-- Outcome of one `telegram_client.send_post` call, by the error taxonomy of
`integrations/telegram_client.py`. -/
inductive SendOutcome where
  | ok (messageId : Str)
  | transient (msg : Str)
  | forbidden (msg : Str)
  | notFound (msg : Str)
  | pubError (msg : Str)
deriving DecidableEq

/-- `exc.__class__.__name__` for the recorded `error_code`. -/
def outcomeErrorCode : SendOutcome → Str
  | .ok _ => "Unknown".data
  | .transient _ => "TransientTelegramError".data
  | .forbidden _ => "ChannelForbiddenError".data
  | .notFound _ => "ChannelNotFoundError".data
  | .pubError _ => "PublicationError".data

/-- `str(exc)`. -/
def outcomeMsg : SendOutcome → Str
  | .ok m => m
  | .transient s => s
  | .forbidden s => s
  | .notFound s => s
  | .pubError s => s

/-- How the `while attempt <= max_retries` delivery loop ends. -/
inductive DeliverOutcome where
  | delivered (messageId : Str)
  | aborted (o : SendOutcome)
  | exhausted (last : Option SendOutcome)
deriving DecidableEq

/-- The delivery loop of `publish_draft` (lines 84–108): `fuel` is the number
of attempts still allowed (`max_retries + 1 - attempt`), `last` the most
recent transient error, `sends` the number of `send_post` calls so far and
`sleeps` the backoff sleeps recorded so far, in tenths of a second
(`asyncio.sleep(0.5 * attempt)` after the attempt counter is bumped). -/
def deliver_loop (send : Nat → SendOutcome) (attempt fuel : Nat)
    (last : Option SendOutcome) (sends : Nat) (sleeps : List Nat) :
    DeliverOutcome × Nat × List Nat :=
  match fuel with
  | 0 => (.exhausted last, sends, sleeps)
  | fuel + 1 =>
      match send attempt with
      | .ok m => (.delivered m, sends + 1, sleeps)
      | .transient msg =>
          if fuel = 0 then
            (.exhausted (some (.transient msg)), sends + 1, sleeps)
          else
            deliver_loop send (attempt + 1) fuel (some (.transient msg)) (sends + 1)
              (sleeps ++ [5 * (attempt + 1)])
      | o => (.aborted o, sends + 1, sleeps)

/-- Permanent errors and `PublicationError` abort the retry loop. -/
def isAbortable : SendOutcome → Bool
  | .forbidden _ => true
  | .notFound _ => true
  | .pubError _ => true
  | _ => false

/-- The ways `publish_draft` raises: its own `PublicationError`, the
re-raised `QuotaExceededError`, and `MultipleResultsFound` escaping from the
`get_by_draft_id` lookup when the draft holds several log rows. -/
inductive PubFailure where
  | publicationError (msg : Str)
  | quotaExceeded
  | multipleResultsFound
deriving DecidableEq

/-- The database/store state the publication service touches. -/
structure PubState where
  drafts : List PostDraft
  logs : List PublicationLog
  channels : List ChannelBinding
  usage : List UsageCounter
  idem : List (Str × Int)
  nextLogId : Nat
deriving DecidableEq

/-- The external context of one `publish_draft` call: the channel transport
outcome per attempt index, the quota verdict with the exception text, and
the clocks. -/
structure PubEnv where
  send : Nat → SendOutcome
  quotaPublishOk : Bool
  quotaMsg : Str
  nowMono : Int
  nowUtc : Int
  today : Int

/-- `PublicationService.publish_draft`.  Returns the raised/returned value,
the final state, and the delivery trace (number of `send_post` calls, backoff
sleeps in tenths of a second).  A `MultipleResultsFound` from a log lookup
propagates; in the failure branches the draft's `failed` status is already
committed by `update_status` when it does, while on the success branch the
in-session `published` assignment is only persisted by `create_log`'s commit,
so a raising lookup leaves the draft unchanged there. -/
def publish_draft (env : PubEnv) (st : PubState) (draft_id maxRetries : Nat) :
    Except PubFailure PublicationLog × PubState × (Nat × List Nat) :=
  let acq := idem_acquire st.idem env.nowMono (publish_key draft_id) PUBLISH_TTL
  let st1 : PubState := { st with idem := acq.2 }
  if ¬ acq.1 then
    match log_get_by_draft_id st1.logs draft_id with
    | .error _ => (.error .multipleResultsFound, st1, (0, []))
    | .ok (some existing) => (.ok existing, st1, (0, []))
    | .ok none =>
        (.error (.publicationError "Publish already in progress".data), st1, (0, []))
  else
    match draft_get_by_id st1.drafts draft_id with
    | none => (.error (.publicationError "Draft not found".data), st1, (0, []))
    | some draft =>
        match channel_get_by_project_id st1.channels draft.project_id with
        | none => (.error (.publicationError "Channel not connected".data), st1, (0, []))
        | some channel =>
            if channel.status ≠ "connected".data then
              (.error (.publicationError "Channel not connected".data), st1, (0, []))
            else if ¬ env.quotaPublishOk then
              match create_log st1.logs st1.nextLogId draft.id "failed".data
                  none (some "quota".data) (some env.quotaMsg) none none with
              | .error _ =>
                  (.error .multipleResultsFound,
                   { st1 with
                      drafts := draft_update_status st1.drafts draft.id "failed".data },
                   (0, []))
              | .ok res =>
                  (.error .quotaExceeded,
                   { st1 with
                      drafts := draft_update_status st1.drafts draft.id "failed".data
                      logs := res.2
                      nextLogId := st1.nextLogId + 1 },
                   (0, []))
            else
              match deliver_loop env.send 0 (maxRetries + 1) none 0 [] with
              | (.delivered m, sends, sleeps) =>
                  match create_log st1.logs st1.nextLogId draft.id "published".data
                      (some m) none none (some env.nowUtc) none with
                  | .error _ =>
                      (.error .multipleResultsFound, st1, (sends, sleeps))
                  | .ok res =>
                      (.ok res.1,
                       { st1 with
                          drafts := draft_update_status st1.drafts draft.id
                            "published".data
                          logs := res.2
                          usage := usage_increment st1.usage draft.project_id
                            env.today 0 1 0 0
                          nextLogId := st1.nextLogId + 1 },
                       (sends, sleeps))
              | (.aborted o, sends, sleeps) =>
                  match create_log st1.logs st1.nextLogId draft.id "failed".data
                      none (some (outcomeErrorCode o)) (some (outcomeMsg o))
                      none none with
                  | .error _ =>
                      (.error .multipleResultsFound,
                       { st1 with
                          drafts := draft_update_status st1.drafts draft.id
                            "failed".data },
                       (sends, sleeps))
                  | .ok res =>
                      (.ok res.1,
                       { st1 with
                          drafts := draft_update_status st1.drafts draft.id
                            "failed".data
                          logs := res.2
                          nextLogId := st1.nextLogId + 1 },
                       (sends, sleeps))
              | (.exhausted lastErr, sends, sleeps) =>
                  match create_log st1.logs st1.nextLogId draft.id "failed".data
                      none
                      (some ((lastErr.map outcomeErrorCode).getD "Unknown".data))
                      (lastErr.map outcomeMsg) none none with
                  | .error _ =>
                      (.error .multipleResultsFound,
                       { st1 with
                          drafts := draft_update_status st1.drafts draft.id
                            "failed".data },
                       (sends, sleeps))
                  | .ok res =>
                      (.ok res.1,
                       { st1 with
                          drafts := draft_update_status st1.drafts draft.id
                            "failed".data
                          logs := res.2
                          nextLogId := st1.nextLogId + 1 },
                       (sends, sleeps))

/-! ### Facts about the delivery loop -/

theorem deliver_loop_sends_le (send : Nat → SendOutcome) :
    ∀ (fuel attempt : Nat) (last : Option SendOutcome) (s0 : Nat) (sl0 : List Nat),
    (deliver_loop send attempt fuel last s0 sl0).2.1 ≤ s0 + fuel := by
  intro fuel
  induction fuel with
  | zero => intro attempt last s0 sl0; simp [deliver_loop]
  | succ f ih =>
      intro attempt last s0 sl0
      rw [deliver_loop]
      cases send attempt with
      | ok m => simp
      | transient msg =>
          by_cases hf : f = 0
          · subst hf; simp
          · simp only []
            rw [if_neg hf]
            have := ih (attempt + 1) (some (.transient msg)) (s0 + 1)
              (sl0 ++ [5 * (attempt + 1)])
            omega
      | forbidden msg => simp
      | notFound msg => simp
      | pubError msg => simp

theorem deliver_loop_sends_pos (send : Nat → SendOutcome) :
    ∀ (fuel attempt : Nat) (last : Option SendOutcome) (s0 : Nat) (sl0 : List Nat),
    fuel ≠ 0 → s0 + 1 ≤ (deliver_loop send attempt fuel last s0 sl0).2.1 := by
  intro fuel
  induction fuel with
  | zero => intro attempt last s0 sl0 h; exact absurd rfl h
  | succ f ih =>
      intro attempt last s0 sl0 _
      rw [deliver_loop]
      cases send attempt with
      | ok m => simp
      | transient msg =>
          by_cases hf : f = 0
          · subst hf; simp
          · simp only []
            rw [if_neg hf]
            have := ih (attempt + 1) (some (.transient msg)) (s0 + 1)
              (sl0 ++ [5 * (attempt + 1)]) hf
            omega
      | forbidden msg => simp
      | notFound msg => simp
      | pubError msg => simp

theorem deliver_loop_shape (send : Nat → SendOutcome) :
    ∀ (fuel attempt : Nat) (last : Option SendOutcome) (s0 : Nat) (sl0 : List Nat),
    (deliver_loop send attempt fuel last s0 sl0).2.1 = s0 ∧
      (deliver_loop send attempt fuel last s0 sl0).2.2 = sl0 ∨
    ∃ j, (deliver_loop send attempt fuel last s0 sl0).2.1 = s0 + j + 1 ∧
      (deliver_loop send attempt fuel last s0 sl0).2.2 =
        sl0 ++ (List.range j).map (fun i => 5 * (attempt + 1 + i)) := by
  intro fuel
  induction fuel with
  | zero => intro attempt last s0 sl0; left; exact ⟨rfl, rfl⟩
  | succ f ih =>
      intro attempt last s0 sl0
      rw [deliver_loop]
      cases send attempt with
      | ok m => right; exact ⟨0, by simp⟩
      | transient msg =>
          by_cases hf : f = 0
          · subst hf
            right
            exact ⟨0, by simp⟩
          · simp only []
            rw [if_neg hf]
            rcases ih (attempt + 1) (some (.transient msg)) (s0 + 1)
              (sl0 ++ [5 * (attempt + 1)]) with ⟨h1, h2⟩ | ⟨j, h1, h2⟩
            · exfalso
              have := deliver_loop_sends_pos send f (attempt + 1)
                (some (.transient msg)) (s0 + 1) (sl0 ++ [5 * (attempt + 1)]) hf
              omega
            · right
              refine ⟨j + 1, by rw [h1]; omega, ?_⟩
              rw [h2, List.range_succ_eq_map, List.map_cons, List.map_map,
                List.append_assoc, List.singleton_append]
              congr 1
              congr 1
              apply List.map_congr_left
              intro i _
              simp only [Function.comp_apply]
              omega
      | forbidden msg => right; exact ⟨0, by simp⟩
      | notFound msg => right; exact ⟨0, by simp⟩
      | pubError msg => right; exact ⟨0, by simp⟩

theorem deliver_loop_abort (send : Nat → SendOutcome) (a : Nat)
    (hperm : isAbortable (send a) = true) :
    ∀ (fuel attempt : Nat) (last : Option SendOutcome) (s0 : Nat) (sl0 : List Nat),
    attempt ≤ a → a < attempt + fuel →
    (∀ i, attempt ≤ i → i < a → ∃ m, send i = .transient m) →
    (deliver_loop send attempt fuel last s0 sl0).1 = .aborted (send a) ∧
    (deliver_loop send attempt fuel last s0 sl0).2.1 = s0 + (a - attempt) + 1 := by
  intro fuel
  induction fuel with
  | zero => intro attempt last s0 sl0 h1 h2 _; omega
  | succ f ih =>
      intro attempt last s0 sl0 h1 h2 htr
      rw [deliver_loop]
      rcases Nat.eq_or_lt_of_le h1 with rfl | hlt
      · cases ho : send attempt with
        | ok m => rw [ho] at hperm; simp [isAbortable] at hperm
        | transient m => rw [ho] at hperm; simp [isAbortable] at hperm
        | forbidden m =>
            refine ⟨rfl, ?_⟩
            show s0 + 1 = s0 + (attempt - attempt) + 1
            omega
        | notFound m =>
            refine ⟨rfl, ?_⟩
            show s0 + 1 = s0 + (attempt - attempt) + 1
            omega
        | pubError m =>
            refine ⟨rfl, ?_⟩
            show s0 + 1 = s0 + (attempt - attempt) + 1
            omega
      · obtain ⟨m, hm⟩ := htr attempt le_rfl hlt
        rw [hm]
        simp only []
        have hf : f ≠ 0 := by omega
        rw [if_neg hf]
        have := ih (attempt + 1) (some (.transient m)) (s0 + 1)
          (sl0 ++ [5 * (attempt + 1)]) (by omega) (by omega)
          (fun i hi1 hi2 => htr i (by omega) hi2)
        exact ⟨this.1, by rw [this.2]; omega⟩

theorem deliver_loop_success (send : Nat → SendOutcome) (a : Nat) (m : Str)
    (hok : send a = .ok m) :
    ∀ (fuel attempt : Nat) (last : Option SendOutcome) (s0 : Nat) (sl0 : List Nat),
    attempt ≤ a → a < attempt + fuel →
    (∀ i, attempt ≤ i → i < a → ∃ mm, send i = .transient mm) →
    (deliver_loop send attempt fuel last s0 sl0).1 = .delivered m ∧
    (deliver_loop send attempt fuel last s0 sl0).2.1 = s0 + (a - attempt) + 1 := by
  intro fuel
  induction fuel with
  | zero => intro attempt last s0 sl0 h1 h2 _; omega
  | succ f ih =>
      intro attempt last s0 sl0 h1 h2 htr
      rw [deliver_loop]
      rcases Nat.eq_or_lt_of_le h1 with rfl | hlt
      · rw [hok]
        simp
      · obtain ⟨mm, hm⟩ := htr attempt le_rfl hlt
        rw [hm]
        simp only []
        have hf : f ≠ 0 := by omega
        rw [if_neg hf]
        have := ih (attempt + 1) (some (.transient mm)) (s0 + 1)
          (sl0 ++ [5 * (attempt + 1)]) (by omega) (by omega)
          (fun i hi1 hi2 => htr i (by omega) hi2)
        exact ⟨this.1, by rw [this.2]; omega⟩

theorem deliver_loop_exhaust (send : Nat → SendOutcome) :
    ∀ (fuel attempt : Nat) (last : Option SendOutcome) (s0 : Nat) (sl0 : List Nat),
    1 ≤ fuel →
    (∀ i, attempt ≤ i → i < attempt + fuel → ∃ m, send i = .transient m) →
    ∃ m, send (attempt + fuel - 1) = .transient m ∧
    (deliver_loop send attempt fuel last s0 sl0).1 = .exhausted (some (.transient m)) ∧
    (deliver_loop send attempt fuel last s0 sl0).2.1 = s0 + fuel := by
  intro fuel
  induction fuel with
  | zero => intro attempt last s0 sl0 h1 _; omega
  | succ f ih =>
      intro attempt last s0 sl0 _ htr
      obtain ⟨m, hm⟩ := htr attempt le_rfl (by omega)
      rw [deliver_loop, hm]
      simp only []
      by_cases hf : f = 0
      · subst hf
        exact ⟨m, by simpa using hm, by simp, by simp⟩
      · rw [if_neg hf]
        obtain ⟨m', hm', hout, hsends⟩ := ih (attempt + 1) (some (.transient m))
          (s0 + 1) (sl0 ++ [5 * (attempt + 1)]) (by omega)
          (fun i hi1 hi2 => htr i (by omega) (by omega))
        refine ⟨m', ?_, hout, by omega⟩
        have : attempt + 1 + f - 1 = attempt + (f + 1) - 1 := by omega
        rw [← this]
        exact hm'

/-- Reduction of `publish_draft` once the idempotency key is acquired, the
draft and a connected channel are found and the quota passes: the call is the
delivery loop followed by the bookkeeping of its outcome. -/
theorem publish_draft_reduce (env : PubEnv) (st : PubState)
    (draft_id maxRetries : Nat) (draft : PostDraft) (channel : ChannelBinding)
    (hacq : (idem_acquire st.idem env.nowMono (publish_key draft_id) PUBLISH_TTL).1 = true)
    (hdraft : draft_get_by_id st.drafts draft_id = some draft)
    (hchan : channel_get_by_project_id st.channels draft.project_id = some channel)
    (hconn : channel.status = "connected".data)
    (hquota : env.quotaPublishOk = true) :
    publish_draft env st draft_id maxRetries =
      (let st1 : PubState :=
        { st with idem := (idem_acquire st.idem env.nowMono (publish_key draft_id)
            PUBLISH_TTL).2 }
      match deliver_loop env.send 0 (maxRetries + 1) none 0 [] with
      | (.delivered m, sends, sleeps) =>
          match create_log st1.logs st1.nextLogId draft.id "published".data
              (some m) none none (some env.nowUtc) none with
          | .error _ => (.error .multipleResultsFound, st1, (sends, sleeps))
          | .ok res =>
              (.ok res.1,
               { st1 with
                  drafts := draft_update_status st1.drafts draft.id "published".data
                  logs := res.2
                  usage := usage_increment st1.usage draft.project_id env.today 0 1 0 0
                  nextLogId := st1.nextLogId + 1 },
               (sends, sleeps))
      | (.aborted o, sends, sleeps) =>
          match create_log st1.logs st1.nextLogId draft.id "failed".data
              none (some (outcomeErrorCode o)) (some (outcomeMsg o)) none none with
          | .error _ =>
              (.error .multipleResultsFound,
               { st1 with
                  drafts := draft_update_status st1.drafts draft.id "failed".data },
               (sends, sleeps))
          | .ok res =>
              (.ok res.1,
               { st1 with
                  drafts := draft_update_status st1.drafts draft.id "failed".data
                  logs := res.2
                  nextLogId := st1.nextLogId + 1 },
               (sends, sleeps))
      | (.exhausted lastErr, sends, sleeps) =>
          match create_log st1.logs st1.nextLogId draft.id "failed".data
              none
              (some ((lastErr.map outcomeErrorCode).getD "Unknown".data))
              (lastErr.map outcomeMsg) none none with
          | .error _ =>
              (.error .multipleResultsFound,
               { st1 with
                  drafts := draft_update_status st1.drafts draft.id "failed".data },
               (sends, sleeps))
          | .ok res =>
              (.ok res.1,
               { st1 with
                  drafts := draft_update_status st1.drafts draft.id "failed".data
                  logs := res.2
                  nextLogId := st1.nextLogId + 1 },
               (sends, sleeps))) := by
  rw [publish_draft]
  simp [hacq, hdraft, hchan, hconn, hquota]

/-- **C5.** Under the success-path preconditions of `publish_draft` (key
acquired, draft and connected channel found, quota passed, no prior log for
the draft): delivery is attempted at most `max_retries + 1` times; the
recorded backoff sleeps are exactly `0.5 * attempt` seconds for each retry
(linear backoff, in tenths of a second here); a permanent channel error or a
`PublicationError` at attempt `a` (after only transient errors) aborts with
exactly `a + 1` send calls, marks the draft `failed` and writes a failed log
carrying that error; and an all-transient run performs exactly
`max_retries + 1` sends, marks the draft `failed` and writes a failed log
recording the last transient error. -/
theorem claim_C5 (env : PubEnv) (st : PubState) (draft_id maxRetries : Nat)
    (draft : PostDraft) (channel : ChannelBinding)
    (hacq : (idem_acquire st.idem env.nowMono (publish_key draft_id) PUBLISH_TTL).1 = true)
    (hdraft : draft_get_by_id st.drafts draft_id = some draft)
    (hchan : channel_get_by_project_id st.channels draft.project_id = some channel)
    (hconn : channel.status = "connected".data)
    (hquota : env.quotaPublishOk = true)
    (hnolog : log_get_by_draft_id st.logs draft.id = .ok none) :
    ((publish_draft env st draft_id maxRetries).2.2.1 ≤ maxRetries + 1) ∧
    ((publish_draft env st draft_id maxRetries).2.2.2 =
      (List.range ((publish_draft env st draft_id maxRetries).2.2.1 - 1)).map
        (fun i => 5 * (i + 1))) ∧
    (∀ a, a ≤ maxRetries → isAbortable (env.send a) = true →
      (∀ i, i < a → ∃ m, env.send i = .transient m) →
      (publish_draft env st draft_id maxRetries).1 =
        .ok (mkLog st.nextLogId draft.id "failed".data none
          (some (outcomeErrorCode (env.send a))) (some (outcomeMsg (env.send a)))
          none none) ∧
      (publish_draft env st draft_id maxRetries).2.1.drafts =
        draft_update_status st.drafts draft.id "failed".data ∧
      (publish_draft env st draft_id maxRetries).2.1.logs =
        st.logs ++ [mkLog st.nextLogId draft.id "failed".data none
          (some (outcomeErrorCode (env.send a))) (some (outcomeMsg (env.send a)))
          none none] ∧
      (publish_draft env st draft_id maxRetries).2.2.1 = a + 1) ∧
    ((∀ i, i ≤ maxRetries → ∃ m, env.send i = .transient m) →
      ∃ m, env.send maxRetries = .transient m ∧
      (publish_draft env st draft_id maxRetries).1 =
        .ok (mkLog st.nextLogId draft.id "failed".data none
          (some "TransientTelegramError".data) (some m) none none) ∧
      (publish_draft env st draft_id maxRetries).2.1.drafts =
        draft_update_status st.drafts draft.id "failed".data ∧
      (publish_draft env st draft_id maxRetries).2.2.1 = maxRetries + 1) := by
  have hred := publish_draft_reduce env st draft_id maxRetries draft channel
    hacq hdraft hchan hconn hquota
  rcases hdl : deliver_loop env.send 0 (maxRetries + 1) none 0 [] with ⟨out, sends, sleeps⟩
  rw [hdl] at hred
  have hle := deliver_loop_sends_le env.send (maxRetries + 1) 0 none 0 []
  rw [hdl] at hle
  have hle' : sends ≤ maxRetries + 1 := by simpa using hle
  have hpos := deliver_loop_sends_pos env.send (maxRetries + 1) 0 none 0 []
    (Nat.succ_ne_zero maxRetries)
  rw [hdl] at hpos
  have hpos' : 1 ≤ sends := by simpa using hpos
  have htrace : (publish_draft env st draft_id maxRetries).2.2 = (sends, sleeps) := by
    rw [hred]
    cases out <;> (simp only []; split <;> rfl)
  refine ⟨?_, ?_, ?_, ?_⟩
  · rw [htrace]
    exact hle'
  · have hsh := deliver_loop_shape env.send (maxRetries + 1) 0 none 0 []
    rw [hdl] at hsh
    have hsleeps : sleeps = (List.range (sends - 1)).map (fun i => 5 * (i + 1)) := by
      rcases hsh with ⟨h1, h2⟩ | ⟨j, h1, h2⟩
      · simp only [] at h1
        omega
      · simp only [] at h1 h2
        rw [h2]
        have hj : sends - 1 = j := by omega
        rw [hj, List.nil_append]
        apply List.map_congr_left
        intro i _
        omega
    rw [htrace]
    exact hsleeps
  · intro a ha hperm htr
    have hab := deliver_loop_abort env.send a hperm (maxRetries + 1) 0 none 0 []
      (Nat.zero_le a) (by omega) (fun i _ hia => htr i hia)
    rw [hdl] at hab
    have hout : out = .aborted (env.send a) := hab.1
    have hsends : sends = a + 1 := by
      have := hab.2
      simp only [] at this
      omega
    subst hout
    rw [hred]
    have hid : draft.id = draft.id := rfl
    have hcl : create_log st.logs st.nextLogId draft.id "failed".data
        none (some (outcomeErrorCode (env.send a))) (some (outcomeMsg (env.send a)))
        none none =
        .ok (mkLog st.nextLogId draft.id "failed".data none
          (some (outcomeErrorCode (env.send a))) (some (outcomeMsg (env.send a)))
          none none,
         st.logs ++ [mkLog st.nextLogId draft.id "failed".data none
          (some (outcomeErrorCode (env.send a))) (some (outcomeMsg (env.send a)))
          none none]) := by
      simp [create_log, hnolog]
    exact ⟨by simp [hcl], by simp [hcl], by simp [hcl], by simp [hcl, hsends]⟩
  · intro htr
    obtain ⟨m, hm, hout, hsends⟩ := deliver_loop_exhaust env.send (maxRetries + 1) 0
      none 0 [] (by omega) (fun i _ hi => htr i (by omega))
    rw [hdl] at hout hsends
    have hout' : out = .exhausted (some (.transient m)) := hout
    have hsends' : sends = maxRetries + 1 := by
      simp only [] at hsends
      omega
    subst hout'
    rw [hred]
    have hm' : env.send maxRetries = .transient m := by
      have h1 : 0 + (maxRetries + 1) - 1 = maxRetries := by omega
      rw [h1] at hm
      exact hm
    have hcl : create_log st.logs st.nextLogId draft.id "failed".data
        none (some "TransientTelegramError".data) (some m) none none =
        .ok (mkLog st.nextLogId draft.id "failed".data none
          (some "TransientTelegramError".data) (some m) none none,
         st.logs ++ [mkLog st.nextLogId draft.id "failed".data none
          (some "TransientTelegramError".data) (some m) none none]) := by
      simp [create_log, hnolog]
    refine ⟨m, hm', ?_, ?_, ?_⟩
    · simp [outcomeErrorCode, outcomeMsg, hcl]
    · simp [outcomeErrorCode, outcomeMsg, hcl]
    · simp [outcomeErrorCode, outcomeMsg, hcl, hsends']

/-- Witness for C5: with a transport that is permanently forbidden from the
first attempt, `publish_draft` returns a failed log carrying
`ChannelForbiddenError` after exactly one send. -/
theorem claim_C5_witness :
    (publish_draft ⟨fun _ => .forbidden ['f'], true, [], 0, 10, 0⟩
        ⟨[⟨1, 2, 3, none, ['t'], ['h'], "ready".data, 0⟩], [],
         [⟨1, 2, ['c'], "connected".data⟩], [], [], 1⟩ 1 2).1 =
      .ok (mkLog 1 1 "failed".data none
        (some (outcomeErrorCode (SendOutcome.forbidden ['f'])))
        (some (outcomeMsg (SendOutcome.forbidden ['f']))) none none) ∧
    (publish_draft ⟨fun _ => .forbidden ['f'], true, [], 0, 10, 0⟩
        ⟨[⟨1, 2, 3, none, ['t'], ['h'], "ready".data, 0⟩], [],
         [⟨1, 2, ['c'], "connected".data⟩], [], [], 1⟩ 1 2).2.2.1 = 0 + 1 := by
  have h := (claim_C5 ⟨fun _ => .forbidden ['f'], true, [], 0, 10, 0⟩
      ⟨[⟨1, 2, 3, none, ['t'], ['h'], "ready".data, 0⟩], [],
       [⟨1, 2, ['c'], "connected".data⟩], [], [], 1⟩ 1 2
      ⟨1, 2, 3, none, ['t'], ['h'], "ready".data, 0⟩
      ⟨1, 2, ['c'], "connected".data⟩
      (by decide) (by decide) (by decide) rfl rfl (by decide)).2.2.1 0
      (Nat.zero_le 2) (by decide) (fun i hi => absurd hi (Nat.not_lt_zero i))
  exact ⟨h.1, h.2.2.2⟩

/-- **C1 (corrected).** `publish_draft` takes the draft-scoped 24-hour
idempotency key before any other work, and a call that fails to acquire it
performs no delivery; but such a call returns the existing `PublicationLog`
only when the draft has exactly one log: with none it raises
`PublicationError`, and with several (legal since migration 0007 dropped the
unique constraint on `draft_id`) the `scalar_one_or_none()` lookup raises
`MultipleResultsFound` instead of returning a log — refuted by
`claim_C1_counterexample`.  The end-to-end part holds: after a first call
that publishes successfully into a log-free table, a second call within the
TTL performs zero send attempts and returns the very log of the first call,
so the channel receives the post exactly once and both calls carry the same
external message id. -/
theorem claim_C1 :
    (∀ (env : PubEnv) (st : PubState) (draft_id maxRetries : Nat),
      (idem_acquire st.idem env.nowMono (publish_key draft_id) PUBLISH_TTL).1 = false →
      (∀ L, log_get_by_draft_id st.logs draft_id = .ok (some L) →
        publish_draft env st draft_id maxRetries = (.ok L, st, (0, []))) ∧
      (log_get_by_draft_id st.logs draft_id = .ok none →
        publish_draft env st draft_id maxRetries =
          (.error (.publicationError "Publish already in progress".data), st, (0, []))) ∧
      (log_get_by_draft_id st.logs draft_id = .error () →
        publish_draft env st draft_id maxRetries =
          (.error .multipleResultsFound, st, (0, [])))) ∧
    (∀ (env1 env2 : PubEnv) (st : PubState) (draft_id maxRetries : Nat)
        (draft : PostDraft) (channel : ChannelBinding) (a : Nat) (m : Str),
      ¬ (env1.nowMono < idem_expiry st.idem (publish_key draft_id)) →
      draft_get_by_id st.drafts draft_id = some draft →
      channel_get_by_project_id st.channels draft.project_id = some channel →
      channel.status = "connected".data →
      env1.quotaPublishOk = true →
      log_get_by_draft_id st.logs draft_id = .ok none →
      a ≤ maxRetries → env1.send a = .ok m →
      (∀ i, i < a → ∃ mm, env1.send i = .transient mm) →
      env2.nowMono < env1.nowMono + (PUBLISH_TTL : Int) →
      ∃ L, (publish_draft env1 st draft_id maxRetries).1 = .ok L ∧
        L.tg_message_id = some m ∧ L.status = "published".data ∧
        (publish_draft env1 st draft_id maxRetries).2.2.1 = a + 1 ∧
        publish_draft env2 (publish_draft env1 st draft_id maxRetries).2.1
            draft_id maxRetries =
          (.ok L, (publish_draft env1 st draft_id maxRetries).2.1, (0, []))) := by
  constructor
  · intro env st draft_id maxRetries hfail
    have hc : env.nowMono < idem_expiry st.idem (publish_key draft_id) := by
      by_contra hc
      rw [idem_acquire, if_neg hc] at hfail
      cases hfail
    have hacq_eq : idem_acquire st.idem env.nowMono (publish_key draft_id) PUBLISH_TTL =
        (false, st.idem) := by
      rw [idem_acquire, if_pos hc]
    refine ⟨?_, ?_, ?_⟩
    · intro L hL
      rw [publish_draft, hacq_eq]
      simp [hL]
    · intro hnone
      rw [publish_draft, hacq_eq]
      simp [hnone]
    · intro herr
      rw [publish_draft, hacq_eq]
      simp [herr]
  · intro env1 env2 st draft_id maxRetries draft channel a m hkey hdraft hchan hconn
      hquota hnolog ha hok htr httl
    have hacq1 : (idem_acquire st.idem env1.nowMono (publish_key draft_id)
        PUBLISH_TTL).1 = true := by
      rw [idem_acquire, if_neg hkey]
    have hid : draft.id = draft_id := by
      have := List.find?_some hdraft
      simpa using this
    have hred := publish_draft_reduce env1 st draft_id maxRetries draft channel
      hacq1 hdraft hchan hconn hquota
    rcases hdl : deliver_loop env1.send 0 (maxRetries + 1) none 0 [] with ⟨out, sends, sleeps⟩
    rw [hdl] at hred
    have hsucc := deliver_loop_success env1.send a m hok (maxRetries + 1) 0 none 0 []
      (Nat.zero_le a) (by omega) (fun i _ hia => htr i hia)
    rw [hdl] at hsucc
    have hout : out = .delivered m := hsucc.1
    have hsends : sends = a + 1 := by
      have := hsucc.2
      simp only [] at this
      omega
    subst hout
    have hnolog' : log_get_by_draft_id st.logs draft.id = .ok none := by
      rw [hid]; exact hnolog
    have hcl : create_log st.logs st.nextLogId draft.id "published".data (some m)
        none none (some env1.nowUtc) none =
        .ok (mkLog st.nextLogId draft.id "published".data (some m) none none
          (some env1.nowUtc) none,
         st.logs ++ [mkLog st.nextLogId draft.id "published".data (some m) none none
          (some env1.nowUtc) none]) := by
      simp [create_log, hnolog']
    refine ⟨mkLog st.nextLogId draft.id "published".data (some m) none none
      (some env1.nowUtc) none, ?_, rfl, rfl, ?_, ?_⟩
    · rw [hred]
      simp [hcl]
    · rw [hred]
      simp [hcl, hsends]
    · have hacq_succ : idem_acquire st.idem env1.nowMono (publish_key draft_id)
          PUBLISH_TTL =
          (true, (publish_key draft_id, env1.nowMono + (PUBLISH_TTL : Int)) ::
            st.idem.filter (fun e => ¬ e.1 == publish_key draft_id)) := by
        rw [idem_acquire, if_neg hkey]
      have hst2idem : (publish_draft env1 st draft_id maxRetries).2.1.idem =
          (publish_key draft_id, env1.nowMono + (PUBLISH_TTL : Int)) ::
            st.idem.filter (fun e => ¬ e.1 == publish_key draft_id) := by
        rw [hred]
        simp [hacq_succ, hcl]
      have hst2logs : (publish_draft env1 st draft_id maxRetries).2.1.logs =
          st.logs ++ [mkLog st.nextLogId draft.id "published".data (some m) none none
            (some env1.nowUtc) none] := by
        rw [hred]
        simp [hcl]
      have hexp2 : idem_expiry (publish_draft env1 st draft_id maxRetries).2.1.idem
          (publish_key draft_id) = env1.nowMono + (PUBLISH_TTL : Int) := by
        rw [hst2idem, idem_expiry]
        simp
      have hfail2 : idem_acquire (publish_draft env1 st draft_id maxRetries).2.1.idem
          env2.nowMono (publish_key draft_id) PUBLISH_TTL =
          (false, (publish_draft env1 st draft_id maxRetries).2.1.idem) := by
        rw [idem_acquire, if_pos (by rw [hexp2]; exact httl)]
      have hfilt : st.logs.filter (fun l => l.draft_id == draft_id) = [] :=
        log_get_by_draft_id_ok_none.mp hnolog
      have hfind2 : log_get_by_draft_id (publish_draft env1 st draft_id maxRetries).2.1.logs
          draft_id =
          .ok (some (mkLog st.nextLogId draft.id "published".data (some m) none none
            (some env1.nowUtc) none)) := by
        rw [hst2logs, log_get_by_draft_id, List.filter_append, hfilt]
        simp [mkLog, hid]
      rw [publish_draft, hfail2]
      simp [hfind2]

/-- Witness for C1: a concrete first publish succeeds on the first attempt
and a repeat call 100 monotonic seconds later (well within the 24-hour TTL)
returns the same log with zero further sends. -/
theorem claim_C1_witness :
    ∃ L, (publish_draft ⟨fun _ => .ok ['m'], true, [], 0, 7, 0⟩
        ⟨[⟨1, 2, 3, none, ['t'], ['h'], "ready".data, 0⟩], [],
         [⟨1, 2, ['c'], "connected".data⟩], [], [], 1⟩ 1 2).1 = .ok L ∧
      L.tg_message_id = some ['m'] ∧ L.status = "published".data ∧
      (publish_draft ⟨fun _ => .ok ['m'], true, [], 0, 7, 0⟩
        ⟨[⟨1, 2, 3, none, ['t'], ['h'], "ready".data, 0⟩], [],
         [⟨1, 2, ['c'], "connected".data⟩], [], [], 1⟩ 1 2).2.2.1 = 0 + 1 ∧
      publish_draft ⟨fun _ => .transient ['e'], true, [], 100, 8, 0⟩
          (publish_draft ⟨fun _ => .ok ['m'], true, [], 0, 7, 0⟩
            ⟨[⟨1, 2, 3, none, ['t'], ['h'], "ready".data, 0⟩], [],
             [⟨1, 2, ['c'], "connected".data⟩], [], [], 1⟩ 1 2).2.1 1 2 =
        (.ok L,
         (publish_draft ⟨fun _ => .ok ['m'], true, [], 0, 7, 0⟩
            ⟨[⟨1, 2, 3, none, ['t'], ['h'], "ready".data, 0⟩], [],
             [⟨1, 2, ['c'], "connected".data⟩], [], [], 1⟩ 1 2).2.1, (0, [])) :=
  claim_C1.2 ⟨fun _ => .ok ['m'], true, [], 0, 7, 0⟩
    ⟨fun _ => .transient ['e'], true, [], 100, 8, 0⟩
    ⟨[⟨1, 2, 3, none, ['t'], ['h'], "ready".data, 0⟩], [],
     [⟨1, 2, ['c'], "connected".data⟩], [], [], 1⟩ 1 2
    ⟨1, 2, 3, none, ['t'], ['h'], "ready".data, 0⟩
    ⟨1, 2, ['c'], "connected".data⟩ 0 ['m']
    (by decide) (by decide) (by decide) rfl rfl (by decide) (by decide) rfl
    (fun i hi => absurd hi (Nat.not_lt_zero i)) (by decide)

/-- Counterexample for C1: draft 1 has two publication logs (a state the log
invariant allows, since only the pair `(draft_id, scheduled_at)` is unique)
and the idempotency key `publish:1` is already held.  The claim says such a
call returns the existing log; instead the `scalar_one_or_none()` lookup
raises `MultipleResultsFound`, so the call returns neither a log nor
`PublicationError`. -/
theorem claim_C1_counterexample :
    LogInv [⟨1, 1, none, some 50, "published".data, some ['m'], none, none⟩,
            ⟨2, 1, some 100, some 100, "published".data, some ['n'], none, none⟩] ∧
    (idem_acquire [(publish_key 1, 1000)] 10 (publish_key 1) PUBLISH_TTL).1 = false ∧
    publish_draft ⟨fun _ => .ok ['m'], true, [], 10, 7, 0⟩
        ⟨[⟨1, 2, 3, none, ['t'], ['h'], "ready".data, 0⟩],
         [⟨1, 1, none, some 50, "published".data, some ['m'], none, none⟩,
          ⟨2, 1, some 100, some 100, "published".data, some ['n'], none, none⟩],
         [⟨1, 2, ['c'], "connected".data⟩], [], [(publish_key 1, 1000)], 3⟩ 1 2 =
      (.error .multipleResultsFound,
       ⟨[⟨1, 2, 3, none, ['t'], ['h'], "ready".data, 0⟩],
        [⟨1, 1, none, some 50, "published".data, some ['m'], none, none⟩,
         ⟨2, 1, some 100, some 100, "published".data, some ['n'], none, none⟩],
        [⟨1, 2, ['c'], "connected".data⟩], [], [(publish_key 1, 1000)], 3⟩,
       (0, [])) := by
  refine ⟨by rw [LogInv]; decide, by decide, by decide⟩

/-! ## Draft generation (`services/draft_service.py::DraftService.generate_draft`) -/

structure ProjectSettings where
  project_id : Nat
  language : Str
  niche : Str
  tone : Str
  template_id : Option Str
  max_post_len : Nat
deriving DecidableEq

/-- `ProjectSettingsRepository.get_by_project_id`. -/
def psettings_get (db : List ProjectSettings) (project_id : Nat) :
    Option ProjectSettings :=
  db.find? (fun s => s.project_id == project_id)

/-- `SourceItemRepository.update_facts_cache`: set the cache and flip the item
status to `processed`. -/
def update_facts_cache (items : List SourceItem) (source_item_id : Nat) (facts : Str) :
    List SourceItem :=
  items.map (fun i => if i.id == source_item_id then
    { i with facts_cache := some facts, status := "processed".data } else i)

/-- `PostDraftRepository.has_recent_hash`: a draft with this hash created at
or after `since` exists. -/
def has_recent_hash (drafts : List PostDraft) (h : Str) (since : Int) : Bool :=
  (drafts.find? (fun d => d.draft_hash == h && decide (since ≤ d.created_at))).isSome

/-- `PostDraftRepository.has_recent_content_hash`: a draft created at or after
`since` whose source item carries this content hash exists (join on
`SourceItem.id == PostDraft.source_item_id`). -/
def has_recent_content_hash (drafts : List PostDraft) (items : List SourceItem)
    (content_hash : Str) (since : Int) : Bool :=
  (drafts.find? (fun d =>
    (match items.find? (fun i => i.id == d.source_item_id) with
     | some it => it.content_hash == content_hash
     | none => false) && decide (since ≤ d.created_at))).isSome

structure LLMResp where
  content : Str
  tokens_estimated : Nat
deriving DecidableEq

/-- The backend context of one `generate_draft` call: the outcome of the
quota gate (`ensure_can_generate`) and of the two gateway calls (facts
extraction and post rendering; any exception inside the guarded block —
gateway failure or the nested `ensure_can_call_llm` rejection — is an
`error`), together with the clock and the relevant `Settings` values. -/
structure GenEnv where
  quotaGenerateOk : Bool
  factsResult : Except Unit LLMResp
  renderResult : Except Unit LLMResp
  now : Int
  today : Int
  duplicateWindowDays : Nat
  defaultMaxPostLen : Nat

inductive GenError where
  | draftGenerationError (msg : Str)
  | quotaExceeded
deriving DecidableEq

structure GenState where
  items : List SourceItem
  sources : List Source
  psettings : List ProjectSettings
  drafts : List PostDraft
  usage : List UsageCounter
deriving DecidableEq

/-- `template_id = template_id or (settings.template_id if settings else None)`
(a passed empty string is falsy and falls through to the settings value). -/
def resolved_template (st : GenState) (project_id : Nat)
    (template_arg : Option Str) : Option Str :=
  let fallback := match psettings_get st.psettings project_id with
    | some s => s.template_id
    | none => none
  match template_arg with
  | some t => if t = [] then fallback else some t
  | none => fallback

/-- `max_post_len = settings.max_post_len if settings else llm_max_tokens`. -/
def resolved_max_post_len (env : GenEnv) (st : GenState) (project_id : Nat) : Nat :=
  match psettings_get st.psettings project_id with
  | some s => s.max_post_len
  | none => env.defaultMaxPostLen

/-- The draft hash `generate_draft` computes for a found item and source. -/
def gen_draft_hash (st : GenState) (item : SourceItem) (source : Source)
    (template_arg : Option Str) : Str :=
  compute_draft_hash source.project_id item.id
    (resolved_template st source.project_id template_arg)
    (pyOrOpt item.raw_text [])

/-- `since = now - timedelta(days=duplicate_window_days)`. -/
def dup_since (env : GenEnv) : Int := env.now - 86400 * (env.duplicateWindowDays : Int)

def exceptIsError : Except Unit LLMResp → Bool
  | .error _ => true
  | .ok _ => false

/-- The guarded facts-extraction/render block of `generate_draft` raises
(and is wrapped into `DraftGenerationError`) exactly when the first gateway
call it actually performs fails.  `if not facts:` re-extracts when the cache
is absent *or* an empty string (Python falsiness). -/
def backend_fails (env : GenEnv) (item : SourceItem) : Bool :=
  if pyOrOpt item.facts_cache [] = [] then
    exceptIsError env.factsResult || exceptIsError env.renderResult
  else
    exceptIsError env.renderResult

/-- The rendering half of the guarded block (`_render_post` plus the draft
insert and the usage bump), entered with the facts already in hand. -/
def generate_render_phase (env : GenEnv) (st : GenState) (item : SourceItem)
    (source : Source) (template_id : Option Str) (max_post_len : Nat)
    (draft_hash : Str) (newDraftId : Nat) : Except GenError PostDraft × GenState :=
  match env.renderResult with
  | .error _ => (.error (.draftGenerationError "LLM недоступен. Попробуйте позже.".data), st)
  | .ok rresp =>
      let content := render_post_text rresp.content item.link max_post_len
      let st1 : GenState := { st with
        usage := usage_increment st.usage source.project_id env.today 0 0 1
          rresp.tokens_estimated }
      let cd := create_draft st1.drafts st1.drafts newDraftId source.project_id item.id
        template_id content draft_hash "new".data env.now
      (.ok cd.1,
       { st1 with
          drafts := cd.2
          usage := usage_increment st1.usage source.project_id env.today 1 0 0 0 })

/-- `DraftService.generate_draft`. -/
def generate_draft (env : GenEnv) (st : GenState) (source_item_id : Nat)
    (template_arg : Option Str) (newDraftId : Nat) :
    Except GenError PostDraft × GenState :=
  match st.items.find? (fun i => i.id == source_item_id) with
  | none => (.error (.draftGenerationError "Source item not found".data), st)
  | some item =>
      match source_get_by_id st.sources item.source_id with
      | none => (.error (.draftGenerationError "Source not found".data), st)
      | some source =>
          if ¬ env.quotaGenerateOk then (.error .quotaExceeded, st)
          else
            let template_id := resolved_template st source.project_id template_arg
            let max_post_len := resolved_max_post_len env st source.project_id
            let draft_hash := gen_draft_hash st item source template_arg
            if has_recent_hash st.drafts draft_hash (dup_since env) then
              (.error (.draftGenerationError "Duplicate draft detected".data), st)
            else if has_recent_content_hash st.drafts st.items item.content_hash
                (dup_since env) then
              (.error (.draftGenerationError "Duplicate content detected".data), st)
            else
              if pyOrOpt item.facts_cache [] = [] then
                  match env.factsResult with
                  | .error _ =>
                      (.error (.draftGenerationError
                        "LLM недоступен. Попробуйте позже.".data), st)
                  | .ok fresp =>
                      let facts := normalize_text fresp.content
                      let st1 : GenState := { st with
                        items := update_facts_cache st.items item.id facts
                        usage := usage_increment st.usage source.project_id env.today
                          0 0 1 fresp.tokens_estimated }
                      generate_render_phase env st1 item source template_id max_post_len
                        draft_hash newDraftId
              else
                  generate_render_phase env st item source template_id max_post_len
                    draft_hash newDraftId

/-- **C4.** With the generation quota passing (its failure raises
`QuotaExceededError`, a different exception), `generate_draft` raises
`DraftGenerationError` exactly when the source item or its source cannot be
found, a draft with the same hash or with the same source-item content hash
exists within the duplicate window, or the guarded backend block fails; and
in the duplicate case the state is left untouched, so no new `PostDraft` is
created. -/
theorem claim_C4 (env : GenEnv) (st : GenState) (source_item_id : Nat)
    (template_arg : Option Str) (newDraftId : Nat)
    (hquota : env.quotaGenerateOk = true) :
    ((∃ msg, (generate_draft env st source_item_id template_arg newDraftId).1 =
        .error (.draftGenerationError msg)) ↔
      (st.items.find? (fun i => i.id == source_item_id) = none ∨
       (∃ item, st.items.find? (fun i => i.id == source_item_id) = some item ∧
         source_get_by_id st.sources item.source_id = none) ∨
       (∃ item source, st.items.find? (fun i => i.id == source_item_id) = some item ∧
         source_get_by_id st.sources item.source_id = some source ∧
         (has_recent_hash st.drafts (gen_draft_hash st item source template_arg)
            (dup_since env) = true ∨
          has_recent_content_hash st.drafts st.items item.content_hash
            (dup_since env) = true ∨
          backend_fails env item = true)))) ∧
    (∀ item source, st.items.find? (fun i => i.id == source_item_id) = some item →
      source_get_by_id st.sources item.source_id = some source →
      (has_recent_hash st.drafts (gen_draft_hash st item source template_arg)
          (dup_since env) = true ∨
       has_recent_content_hash st.drafts st.items item.content_hash
          (dup_since env) = true) →
      (generate_draft env st source_item_id template_arg newDraftId).2 = st ∧
      ∃ msg, (generate_draft env st source_item_id template_arg newDraftId).1 =
        .error (.draftGenerationError msg)) := by
  have hq : ¬ ¬ env.quotaGenerateOk = true := fun hcon => hcon hquota
  have hdup : ∀ item source,
      st.items.find? (fun i => i.id == source_item_id) = some item →
      source_get_by_id st.sources item.source_id = some source →
      (has_recent_hash st.drafts (gen_draft_hash st item source template_arg)
          (dup_since env) = true ∨
       has_recent_content_hash st.drafts st.items item.content_hash
          (dup_since env) = true) →
      ∃ msg, generate_draft env st source_item_id template_arg newDraftId =
        (.error (.draftGenerationError msg), st) := by
    intro item source hitem hsrc hd
    rw [generate_draft, hitem]
    simp only []
    rw [hsrc]
    simp only []
    rw [if_neg hq]
    by_cases hh : has_recent_hash st.drafts (gen_draft_hash st item source template_arg)
        (dup_since env) = true
    · rw [if_pos hh]
      exact ⟨_, rfl⟩
    · rcases hd with hd | hd
      · exact absurd hd hh
      · rw [if_neg hh, if_pos hd]
        exact ⟨_, rfl⟩
  have hbackend : ∀ item source,
      st.items.find? (fun i => i.id == source_item_id) = some item →
      source_get_by_id st.sources item.source_id = some source →
      ¬ has_recent_hash st.drafts (gen_draft_hash st item source template_arg)
          (dup_since env) = true →
      ¬ has_recent_content_hash st.drafts st.items item.content_hash
          (dup_since env) = true →
      backend_fails env item = true →
      ∃ msg, (generate_draft env st source_item_id template_arg newDraftId).1 =
        .error (.draftGenerationError msg) := by
    intro item source hitem hsrc hh hc hb
    rw [generate_draft, hitem]
    simp only []
    rw [hsrc]
    simp only []
    rw [if_neg hq]
    rw [if_neg hh, if_neg hc]
    rw [backend_fails] at hb
    by_cases hfc : pyOrOpt item.facts_cache [] = []
    · rw [if_pos hfc] at hb ⊢
      cases hfr : env.factsResult with
      | error e =>
          exact ⟨_, rfl⟩
      | ok fresp =>
          simp only []
          cases hre : env.renderResult with
          | error e =>
              rw [generate_render_phase, hre]
              exact ⟨_, rfl⟩
          | ok rresp =>
              rw [exceptIsError.eq_def, hfr, exceptIsError.eq_def, hre] at hb
              simp at hb
    · rw [if_neg hfc] at hb ⊢
      cases hre : env.renderResult with
      | error e =>
          rw [generate_render_phase, hre]
          exact ⟨_, rfl⟩
      | ok rresp =>
          rw [exceptIsError.eq_def, hre] at hb
          cases hb
  have hok : ∀ item source,
      st.items.find? (fun i => i.id == source_item_id) = some item →
      source_get_by_id st.sources item.source_id = some source →
      ¬ has_recent_hash st.drafts (gen_draft_hash st item source template_arg)
          (dup_since env) = true →
      ¬ has_recent_content_hash st.drafts st.items item.content_hash
          (dup_since env) = true →
      ¬ backend_fails env item = true →
      ∃ d, (generate_draft env st source_item_id template_arg newDraftId).1 = .ok d := by
    intro item source hitem hsrc hh hc hb
    rw [generate_draft, hitem]
    simp only []
    rw [hsrc]
    simp only []
    rw [if_neg hq]
    rw [if_neg hh, if_neg hc]
    rw [backend_fails] at hb
    by_cases hfc : pyOrOpt item.facts_cache [] = []
    · rw [if_pos hfc] at hb ⊢
      cases hfr : env.factsResult with
      | error e =>
          rw [exceptIsError.eq_def, hfr] at hb
          simp at hb
      | ok fresp =>
          simp only []
          cases hre : env.renderResult with
          | error e =>
              rw [exceptIsError.eq_def, hfr, exceptIsError.eq_def, hre] at hb
              simp at hb
          | ok rresp =>
              rw [generate_render_phase, hre]
              exact ⟨_, rfl⟩
    · rw [if_neg hfc] at hb ⊢
      cases hre : env.renderResult with
      | error e =>
          rw [exceptIsError.eq_def, hre] at hb
          simp at hb
      | ok rresp =>
          rw [generate_render_phase, hre]
          exact ⟨_, rfl⟩
  constructor
  · cases hitem : st.items.find? (fun i => i.id == source_item_id) with
    | none =>
        constructor
        · intro _; exact Or.inl rfl
        · intro _
          rw [generate_draft, hitem]
          exact ⟨_, rfl⟩
    | some item =>
        cases hsrc : source_get_by_id st.sources item.source_id with
        | none =>
            constructor
            · intro _; exact Or.inr (Or.inl ⟨item, rfl, hsrc⟩)
            · intro _
              rw [generate_draft, hitem]
              simp only []
              rw [hsrc]
              exact ⟨_, rfl⟩
        | some source =>
            constructor
            · intro hex
              refine Or.inr (Or.inr ⟨item, source, rfl, hsrc, ?_⟩)
              by_cases h1 : has_recent_hash st.drafts
                  (gen_draft_hash st item source template_arg) (dup_since env) = true
              · exact Or.inl h1
              · by_cases h2 : has_recent_content_hash st.drafts st.items
                    item.content_hash (dup_since env) = true
                · exact Or.inr (Or.inl h2)
                · by_cases h3 : backend_fails env item = true
                  · exact Or.inr (Or.inr h3)
                  · exfalso
                    rcases hok item source hitem hsrc h1 h2 h3 with ⟨d, hd⟩
                    rcases hex with ⟨msg, hmsg⟩
                    rw [hd] at hmsg
                    cases hmsg
            · rintro (h1 | ⟨item2, h1, h2⟩ | ⟨item2, source2, h1, h2, h3⟩)
              · exact absurd h1 (by simp)
              · have he : item = item2 := Option.some.inj h1
                subst he
                exact absurd (hsrc.symm.trans h2) (by simp)
              · have he : item = item2 := Option.some.inj h1
                subst he
                have hs : source = source2 := Option.some.inj (hsrc.symm.trans h2)
                subst hs
                by_cases hh : has_recent_hash st.drafts
                    (gen_draft_hash st item source template_arg) (dup_since env) = true
                · rcases hdup item source hitem hsrc (Or.inl hh) with ⟨msg, hmsg⟩
                  exact ⟨msg, by rw [hmsg]⟩
                · by_cases hc : has_recent_content_hash st.drafts st.items
                      item.content_hash (dup_since env) = true
                  · rcases hdup item source hitem hsrc (Or.inr hc) with ⟨msg, hmsg⟩
                    exact ⟨msg, by rw [hmsg]⟩
                  · rcases h3 with h3 | h3 | h3
                    · exact absurd h3 hh
                    · exact absurd h3 hc
                    · exact hbackend item source hitem hsrc hh hc h3
  · intro item source hitem hsrc hd
    rcases hdup item source hitem hsrc hd with ⟨msg, hmsg⟩
    rw [hmsg]
    exact ⟨rfl, msg, rfl⟩

/-- Witness for C4: a source item whose content hash already produced a
draft inside the 7-day window makes `generate_draft` fail with
`DraftGenerationError` and leave the state untouched. -/
theorem claim_C4_witness :
    (generate_draft ⟨true, .ok ⟨[], 0⟩, .ok ⟨[], 0⟩, 100, 0, 7, 512⟩
        ⟨[⟨3, 4, ['e'], ['l'], ['t'], none, some ['r'], none, ['c'], "new".data⟩],
         [⟨4, 9, ['u'], "rss".data, "ok".data, none, none, 0⟩], [],
         [⟨7, 9, 3, none, ['x'], ['z'], "new".data, 50⟩], []⟩ 3 none 99).2 =
      ⟨[⟨3, 4, ['e'], ['l'], ['t'], none, some ['r'], none, ['c'], "new".data⟩],
       [⟨4, 9, ['u'], "rss".data, "ok".data, none, none, 0⟩], [],
       [⟨7, 9, 3, none, ['x'], ['z'], "new".data, 50⟩], []⟩ ∧
    ∃ msg, (generate_draft ⟨true, .ok ⟨[], 0⟩, .ok ⟨[], 0⟩, 100, 0, 7, 512⟩
        ⟨[⟨3, 4, ['e'], ['l'], ['t'], none, some ['r'], none, ['c'], "new".data⟩],
         [⟨4, 9, ['u'], "rss".data, "ok".data, none, none, 0⟩], [],
         [⟨7, 9, 3, none, ['x'], ['z'], "new".data, 50⟩], []⟩ 3 none 99).1 =
      .error (.draftGenerationError msg) :=
  (claim_C4 ⟨true, .ok ⟨[], 0⟩, .ok ⟨[], 0⟩, 100, 0, 7, 512⟩
      ⟨[⟨3, 4, ['e'], ['l'], ['t'], none, some ['r'], none, ['c'], "new".data⟩],
       [⟨4, 9, ['u'], "rss".data, "ok".data, none, none, 0⟩], [],
       [⟨7, 9, 3, none, ['x'], ['z'], "new".data, 50⟩], []⟩ 3 none 99 rfl).2
    ⟨3, 4, ['e'], ['l'], ['t'], none, some ['r'], none, ['c'], "new".data⟩
    ⟨4, 9, ['u'], "rss".data, "ok".data, none, none, 0⟩
    (by decide) (by decide) (Or.inr (by decide))

/-! ## Autopost scheduler (`services/publication_service.py::publish_due`) -/

/-- A project schedule (`domain/models.py::Schedule`).  The IANA zone of the
schedule is modelled as a fixed UTC offset in seconds (`tzOffset`), the
boundary to the external `zoneinfo` database; `slots` is the decoded
`slots_json` list. -/
structure Schedule where
  project_id : Nat
  tzOffset : Int
  slots : List Str
  per_day_limit : Nat
  enabled : Bool
deriving DecidableEq

/-- `ScheduleRepository.get_by_project_id`. -/
def schedule_get_by_project_id (db : List Schedule) (project_id : Nat) :
    Option Schedule :=
  db.find? (fun s => s.project_id == project_id)

/-- `PostDraftRepository.get_next_ready`: the oldest `ready` draft of the
project (`order_by created_at asc limit 1`; among equal timestamps the
earliest-inserted row). -/
def get_next_ready (drafts : List PostDraft) (project_id : Nat) : Option PostDraft :=
  match drafts.filter (fun d => d.project_id == project_id && d.status == "ready".data) with
  | [] => none
  | d :: rest =>
      some (rest.foldl (fun acc x => if x.created_at < acc.created_at then x else acc) d)

/-- `PublicationLogRepository.count_by_project_scheduled_between` (join on the
draft's project; `scheduled_at` in `[start_at, end_at)`, nulls excluded). -/
def count_by_project_scheduled_between (drafts : List PostDraft)
    (logs : List PublicationLog) (project_id : Nat) (start_at end_at : Int) : Nat :=
  (logs.filter (fun l =>
    (match drafts.find? (fun d => d.id == l.draft_id) with
     | some d => d.project_id == project_id
     | none => false) &&
    (match l.scheduled_at with
     | some s => decide (start_at ≤ s) && decide (s < end_at)
     | none => false))).length

inductive PubDueError where
  | quotaExceeded
  | sendError (o : SendOutcome)
  | multipleResultsFound
deriving DecidableEq

/-- The quota-checked delivery of the Publication Engine: lines 72–124 of
`publish_draft`, from `ensure_can_publish` through the retry loop to the log
write and the usage bump, for an already-located draft.  (The lemma
`publish_draft_is_quota_checked_deliver` ties it to `publish_draft`.) -/
def quota_checked_deliver (env : PubEnv) (st : PubState) (draft : PostDraft)
    (maxRetries : Nat) : Except PubFailure PublicationLog × PubState × (Nat × List Nat) :=
  if ¬ env.quotaPublishOk then
    match create_log st.logs st.nextLogId draft.id "failed".data
        none (some "quota".data) (some env.quotaMsg) none none with
    | .error _ =>
        (.error .multipleResultsFound,
         { st with drafts := draft_update_status st.drafts draft.id "failed".data },
         (0, []))
    | .ok res =>
        (.error .quotaExceeded,
         { st with
            drafts := draft_update_status st.drafts draft.id "failed".data
            logs := res.2
            nextLogId := st.nextLogId + 1 },
         (0, []))
  else
    match deliver_loop env.send 0 (maxRetries + 1) none 0 [] with
    | (.delivered m, sends, sleeps) =>
        match create_log st.logs st.nextLogId draft.id "published".data
            (some m) none none (some env.nowUtc) none with
        | .error _ => (.error .multipleResultsFound, st, (sends, sleeps))
        | .ok res =>
            (.ok res.1,
             { st with
                drafts := draft_update_status st.drafts draft.id "published".data
                logs := res.2
                usage := usage_increment st.usage draft.project_id env.today 0 1 0 0
                nextLogId := st.nextLogId + 1 },
             (sends, sleeps))
    | (.aborted o, sends, sleeps) =>
        match create_log st.logs st.nextLogId draft.id "failed".data
            none (some (outcomeErrorCode o)) (some (outcomeMsg o)) none none with
        | .error _ =>
            (.error .multipleResultsFound,
             { st with drafts := draft_update_status st.drafts draft.id "failed".data },
             (sends, sleeps))
        | .ok res =>
            (.ok res.1,
             { st with
                drafts := draft_update_status st.drafts draft.id "failed".data
                logs := res.2
                nextLogId := st.nextLogId + 1 },
             (sends, sleeps))
    | (.exhausted lastErr, sends, sleeps) =>
        match create_log st.logs st.nextLogId draft.id "failed".data
            none
            (some ((lastErr.map outcomeErrorCode).getD "Unknown".data))
            (lastErr.map outcomeMsg) none none with
        | .error _ =>
            (.error .multipleResultsFound,
             { st with drafts := draft_update_status st.drafts draft.id "failed".data },
             (sends, sleeps))
        | .ok res =>
            (.ok res.1,
             { st with
                drafts := draft_update_status st.drafts draft.id "failed".data
                logs := res.2
                nextLogId := st.nextLogId + 1 },
             (sends, sleeps))

/-- `publish_draft` is the idempotency-key/lookup wrapper around
`quota_checked_deliver`. -/
theorem publish_draft_is_quota_checked_deliver (env : PubEnv) (st : PubState)
    (draft_id maxRetries : Nat) (draft : PostDraft) (channel : ChannelBinding)
    (hacq : (idem_acquire st.idem env.nowMono (publish_key draft_id) PUBLISH_TTL).1 = true)
    (hdraft : draft_get_by_id st.drafts draft_id = some draft)
    (hchan : channel_get_by_project_id st.channels draft.project_id = some channel)
    (hconn : channel.status = "connected".data) :
    publish_draft env st draft_id maxRetries =
      quota_checked_deliver env
        { st with idem := (idem_acquire st.idem env.nowMono (publish_key draft_id)
            PUBLISH_TTL).2 }
        draft maxRetries := by
  rw [publish_draft, quota_checked_deliver]
  simp [hacq, hdraft, hchan, hconn]

/-- `PublicationService.publish_due`.  The third component counts
`send_post` calls.  Telegram errors and `QuotaExceededError` propagate to the
caller (no internal handling).  The decoded slot list stands in for
`slots_json` (invalid JSON decodes to the empty list). -/
def publish_due (env : PubEnv) (st : PubState) (schedules : List Schedule)
    (project_id : Nat) (now_utc : Int) :
    Except PubDueError (Option PublicationLog) × PubState × Nat :=
  match schedule_get_by_project_id schedules project_id with
  | none => (.ok none, st, 0)
  | some schedule =>
      if ¬ schedule.enabled then (.ok none, st, 0)
      else
        let now_local := now_utc + schedule.tzOffset
        match resolve_due_slot now_local schedule.slots with
        | none => (.ok none, st, 0)
        | some scheduled_local =>
            match channel_get_by_project_id st.channels project_id with
            | none => (.ok none, st, 0)
            | some channel =>
                if channel.status ≠ "connected".data then (.ok none, st, 0)
                else
                  match get_next_ready st.drafts project_id with
                  | none => (.ok none, st, 0)
                  | some draft =>
                      let scheduled_at_utc := scheduled_local - schedule.tzOffset
                      match log_get_by_draft_and_scheduled st.logs draft.id
                          scheduled_at_utc with
                      | some existing => (.ok (some existing), st, 0)
                      | none =>
                          if schedule.per_day_limit ≤
                              count_by_project_scheduled_between st.drafts st.logs
                                project_id
                                (localMidnight now_local - schedule.tzOffset)
                                (localMidnight now_local + 86400 - schedule.tzOffset) then
                            (.ok none, st, 0)
                          else if ¬ env.quotaPublishOk then
                            (.error .quotaExceeded, st, 0)
                          else
                            match env.send 0 with
                            | .ok m =>
                                match create_log st.logs st.nextLogId draft.id
                                    "published".data (some m) none none (some env.nowUtc)
                                    (some scheduled_at_utc) with
                                | .error _ =>
                                    (.error .multipleResultsFound, st, 1)
                                | .ok res =>
                                    (.ok (some res.1),
                                     { st with
                                        drafts := draft_update_status st.drafts draft.id
                                          "published".data
                                        logs := res.2
                                        usage := usage_increment st.usage project_id
                                          env.today 0 1 0 0
                                        nextLogId := st.nextLogId + 1 },
                                     1)
                            | o => (.error (.sendError o), st, 1)

/-- A log with its slot stamp removed, for comparing a scheduled write with
the engine's unscheduled write. -/
def eraseSched (l : PublicationLog) : PublicationLog := { l with scheduled_at := none }

theorem foldl_pick_mem {α : Type} (g : α → α → α)
    (hg : ∀ acc x, g acc x = acc ∨ g acc x = x) :
    ∀ (rest : List α) (a : α), rest.foldl g a ∈ a :: rest := by
  intro rest
  induction rest with
  | nil => intro a; simp
  | cons x t ih =>
      intro a
      rw [List.foldl_cons]
      rcases List.mem_cons.mp (ih (g a x)) with h | h
      · rcases hg a x with h2 | h2
        · rw [h, h2]; exact List.mem_cons_self _ _
        · rw [h, h2]; exact List.mem_cons_of_mem _ (List.mem_cons_self _ _)
      · exact List.mem_cons_of_mem _ (List.mem_cons_of_mem _ h)

theorem get_next_ready_mem (drafts : List PostDraft) (project_id : Nat)
    (d : PostDraft) (h : get_next_ready drafts project_id = some d) :
    d.project_id = project_id ∧ d.status = "ready".data := by
  rw [get_next_ready] at h
  cases hf : drafts.filter
      (fun d => d.project_id == project_id && d.status == "ready".data) with
  | nil => rw [hf] at h; cases h
  | cons a rest =>
      rw [hf] at h
      simp only [Option.some.injEq] at h
      subst h
      have hmem := foldl_pick_mem
        (fun acc x => if x.created_at < acc.created_at then x else acc)
        (fun acc x => by
          by_cases hcx : x.created_at < acc.created_at
          · exact Or.inr (if_pos hcx)
          · exact Or.inl (if_neg hcx)) rest a
      have hin : (rest.foldl
          (fun acc x => if x.created_at < acc.created_at then x else acc) a) ∈
          drafts.filter (fun d => d.project_id == project_id &&
            d.status == "ready".data) := by
        rw [hf]; exact hmem
      have hp := List.of_mem_filter hin
      simp only [Bool.and_eq_true, beq_iff_eq] at hp
      exact hp

/-- **C6 (amended).** When `publish_due` reaches its success path *and* both
the quota check and the first delivery attempt succeed, its effect equals that
of the Publication Engine's quota-checked delivery for the same draft — same
draft transition to `published`, same `posts_published` bump, same appended
log — except that `publish_due`'s log carries the resolved UTC slot time.
(The unamended "same failure handling" fails: on quota rejection the engine
marks the draft failed and writes a `failed` log while `publish_due`
propagates the error and writes nothing, and the engine retries transient
errors while `publish_due` does not; see the counterexample.) -/
theorem claim_C6 (env : PubEnv) (st : PubState) (schedules : List Schedule)
    (project_id : Nat) (now_utc : Int) (schedule : Schedule) (slotLocal : Int)
    (channel : ChannelBinding) (draft : PostDraft) (m : Str) (maxRetries : Nat)
    (hsched : schedule_get_by_project_id schedules project_id = some schedule)
    (hen : schedule.enabled = true)
    (hslot : resolve_due_slot (now_utc + schedule.tzOffset) schedule.slots =
      some slotLocal)
    (hchan : channel_get_by_project_id st.channels project_id = some channel)
    (hconn : channel.status = "connected".data)
    (hready : get_next_ready st.drafts project_id = some draft)
    (hnoslog : log_get_by_draft_and_scheduled st.logs draft.id
      (slotLocal - schedule.tzOffset) = none)
    (hcap : count_by_project_scheduled_between st.drafts st.logs project_id
        (localMidnight (now_utc + schedule.tzOffset) - schedule.tzOffset)
        (localMidnight (now_utc + schedule.tzOffset) + 86400 - schedule.tzOffset) <
      schedule.per_day_limit)
    (hquota : env.quotaPublishOk = true)
    (hsend : env.send 0 = .ok m)
    (hnolog : log_get_by_draft_id st.logs draft.id = .ok none) :
    publish_due env st schedules project_id now_utc =
      (.ok (some (mkLog st.nextLogId draft.id "published".data (some m) none none
        (some env.nowUtc) (some (slotLocal - schedule.tzOffset)))),
       { st with
          drafts := draft_update_status st.drafts draft.id "published".data
          logs := st.logs ++ [mkLog st.nextLogId draft.id "published".data (some m)
            none none (some env.nowUtc) (some (slotLocal - schedule.tzOffset))]
          usage := usage_increment st.usage project_id env.today 0 1 0 0
          nextLogId := st.nextLogId + 1 },
       1) ∧
    quota_checked_deliver env st draft maxRetries =
      (.ok (mkLog st.nextLogId draft.id "published".data (some m) none none
        (some env.nowUtc) none),
       { st with
          drafts := draft_update_status st.drafts draft.id "published".data
          logs := st.logs ++ [mkLog st.nextLogId draft.id "published".data (some m)
            none none (some env.nowUtc) none]
          usage := usage_increment st.usage project_id env.today 0 1 0 0
          nextLogId := st.nextLogId + 1 },
       (1, [])) := by
  have hpid : draft.project_id = project_id := (get_next_ready_mem _ _ _ hready).1
  constructor
  · rw [publish_due, hsched]
    simp only []
    rw [if_neg (by simp [hen])]
    rw [hslot]
    simp only []
    rw [hchan]
    simp only []
    rw [if_neg (by simp [hconn]), hready]
    simp only []
    rw [hnoslog]
    simp only []
    rw [if_neg (by omega), if_neg (by simp [hquota]), hsend]
    simp only []
    simp [create_log, hnoslog]
  · rw [quota_checked_deliver, if_neg (by simp [hquota])]
    rcases hdl : deliver_loop env.send 0 (maxRetries + 1) none 0 [] with ⟨out, sends, sleeps⟩
    have hsucc := deliver_loop_success env.send 0 m hsend (maxRetries + 1) 0 none 0 []
      le_rfl (by omega) (fun i h1 h2 => absurd h2 (by omega))
    rw [hdl] at hsucc
    have hout : out = .delivered m := hsucc.1
    have hsends : sends = 1 := by
      have := hsucc.2
      simp only [] at this
      omega
    have hsh := deliver_loop_shape env.send (maxRetries + 1) 0 none 0 []
    rw [hdl] at hsh
    have hsleeps : sleeps = [] := by
      rcases hsh with ⟨h1, h2⟩ | ⟨j, h1, h2⟩
      · exact h2
      · simp only [] at h1 h2
        have : j = 0 := by omega
        subst this
        simpa using h2
    subst hout
    subst hsends
    subst hsleeps
    simp only []
    rw [hpid]
    simp [create_log, hnolog]

/-- **C6 counterexample.** A concrete success-path state (enabled schedule
with slot `10:00` due at local 10:01, connected channel, one ready draft, no
logs, cap not reached) where the quota check fails: `publish_due` propagates
`QuotaExceededError` leaving the draft `ready` and writing no log, while the
Publication Engine's quota-checked delivery marks the draft `failed` and
writes a `failed` log with code `quota` — so the claimed "same failure
handling" equality of effects is false. -/
theorem claim_C6_counterexample :
    schedule_get_by_project_id [⟨2, 0, ["10:00".data], 1, true⟩] 2 =
      some ⟨2, 0, ["10:00".data], 1, true⟩ ∧
    resolve_due_slot 36060 ["10:00".data] = some 36000 ∧
    get_next_ready [⟨1, 2, 3, none, ['t'], ['h'], "ready".data, 0⟩] 2 =
      some ⟨1, 2, 3, none, ['t'], ['h'], "ready".data, 0⟩ ∧
    publish_due ⟨fun _ => .ok ['m'], false, ['q'], 0, 50, 0⟩
        ⟨[⟨1, 2, 3, none, ['t'], ['h'], "ready".data, 0⟩], [],
         [⟨1, 2, ['c'], "connected".data⟩], [], [], 1⟩
        [⟨2, 0, ["10:00".data], 1, true⟩] 2 36060 =
      (.error .quotaExceeded,
       ⟨[⟨1, 2, 3, none, ['t'], ['h'], "ready".data, 0⟩], [],
        [⟨1, 2, ['c'], "connected".data⟩], [], [], 1⟩, 0) ∧
    ¬ ((publish_due ⟨fun _ => .ok ['m'], false, ['q'], 0, 50, 0⟩
        ⟨[⟨1, 2, 3, none, ['t'], ['h'], "ready".data, 0⟩], [],
         [⟨1, 2, ['c'], "connected".data⟩], [], [], 1⟩
        [⟨2, 0, ["10:00".data], 1, true⟩] 2 36060).2.1.logs.map eraseSched =
      (quota_checked_deliver ⟨fun _ => .ok ['m'], false, ['q'], 0, 50, 0⟩
        ⟨[⟨1, 2, 3, none, ['t'], ['h'], "ready".data, 0⟩], [],
         [⟨1, 2, ['c'], "connected".data⟩], [], [], 1⟩
        ⟨1, 2, 3, none, ['t'], ['h'], "ready".data, 0⟩ 2).2.1.logs) ∧
    ¬ ((publish_due ⟨fun _ => .ok ['m'], false, ['q'], 0, 50, 0⟩
        ⟨[⟨1, 2, 3, none, ['t'], ['h'], "ready".data, 0⟩], [],
         [⟨1, 2, ['c'], "connected".data⟩], [], [], 1⟩
        [⟨2, 0, ["10:00".data], 1, true⟩] 2 36060).2.1.drafts =
      (quota_checked_deliver ⟨fun _ => .ok ['m'], false, ['q'], 0, 50, 0⟩
        ⟨[⟨1, 2, 3, none, ['t'], ['h'], "ready".data, 0⟩], [],
         [⟨1, 2, ['c'], "connected".data⟩], [], [], 1⟩
        ⟨1, 2, 3, none, ['t'], ['h'], "ready".data, 0⟩ 2).2.1.drafts) := by
  refine ⟨by decide, by decide, by decide, by decide, by decide, by decide⟩

/-- Witness for C6: on the same concrete success-path state with the quota
passing and the first send succeeding, `publish_due` and the engine's
quota-checked delivery produce the same draft transition, usage bump and
appended log, the former's log carrying the 10:00 UTC slot. -/
theorem claim_C6_witness :
    publish_due ⟨fun _ => .ok ['m'], true, ['q'], 0, 50, 0⟩
        ⟨[⟨1, 2, 3, none, ['t'], ['h'], "ready".data, 0⟩], [],
         [⟨1, 2, ['c'], "connected".data⟩], [], [], 1⟩
        [⟨2, 0, ["10:00".data], 1, true⟩] 2 36060 =
      (.ok (some (mkLog 1 1 "published".data (some ['m']) none none
        (some 50) (some 36000))),
       { drafts := draft_update_status
            [⟨1, 2, 3, none, ['t'], ['h'], "ready".data, 0⟩] 1 "published".data
         logs := [] ++ [mkLog 1 1 "published".data (some ['m']) none none
            (some 50) (some 36000)]
         channels := [⟨1, 2, ['c'], "connected".data⟩]
         usage := usage_increment [] 2 0 0 1 0 0
         idem := []
         nextLogId := 2 },
       1) ∧
    quota_checked_deliver ⟨fun _ => .ok ['m'], true, ['q'], 0, 50, 0⟩
        ⟨[⟨1, 2, 3, none, ['t'], ['h'], "ready".data, 0⟩], [],
         [⟨1, 2, ['c'], "connected".data⟩], [], [], 1⟩
        ⟨1, 2, 3, none, ['t'], ['h'], "ready".data, 0⟩ 2 =
      (.ok (mkLog 1 1 "published".data (some ['m']) none none (some 50) none),
       { drafts := draft_update_status
            [⟨1, 2, 3, none, ['t'], ['h'], "ready".data, 0⟩] 1 "published".data
         logs := [] ++ [mkLog 1 1 "published".data (some ['m']) none none
            (some 50) none]
         channels := [⟨1, 2, ['c'], "connected".data⟩]
         usage := usage_increment [] 2 0 0 1 0 0
         idem := []
         nextLogId := 2 },
       (1, [])) :=
  claim_C6 ⟨fun _ => .ok ['m'], true, ['q'], 0, 50, 0⟩
    ⟨[⟨1, 2, 3, none, ['t'], ['h'], "ready".data, 0⟩], [],
     [⟨1, 2, ['c'], "connected".data⟩], [], [], 1⟩
    [⟨2, 0, ["10:00".data], 1, true⟩] 2 36060
    ⟨2, 0, ["10:00".data], 1, true⟩ 36000
    ⟨1, 2, ['c'], "connected".data⟩
    ⟨1, 2, 3, none, ['t'], ['h'], "ready".data, 0⟩ ['m'] 2
    (by decide) rfl (by decide) (by decide) rfl (by decide) (by decide)
    (by decide) rfl rfl rfl

end Autocontent
